import Mathlib

/-!
Verification of the evaluation and similarity-retrieval subsystem of the
CoT-evaluation harness, as a shallow embedding of the Python sources
(src/vector_db.py, src/evaluation.py, src/models.py, src/sqlite_backup.py,
src/main.py).

Python dynamic values are embedded as the inductive type PyVal; Python dicts
as insertion-ordered association lists; a raised exception as the error side
of Except PyErr; external collaborators (the embedding model, the LLM call,
json.loads, the filesystem, the sqlite driver) as explicit oracle parameters
giving the outcome of each external call.  A try/except block is embedded by
matching on the Except value of its body.
-/

set_option autoImplicit false

namespace CotEval

/-- Embedded Python exception values (only the class is tracked). -/
inductive PyErr where
  | attributeError
  | typeError
  | valueError
  | keyError
  | ioError
  | sqliteError
  | runtimeError
  deriving DecidableEq, Repr

/-- Embedded Python values: None, bool, numbers (floats and ints are modelled
exactly, as rationals), str, list and dict (insertion-ordered key/value list). -/
inductive PyVal where
  | none
  | bool (b : Bool)
  | num (q : ℚ)
  | str (s : String)
  | list (xs : List PyVal)
  | dict (fields : List (String × PyVal))

/-- A Python dict whose keys are strings: insertion-ordered association list. -/
abbrev PyDict := List (String × PyVal)

mutual
/-- Structural equality of embedded Python values (Python ==). -/
def PyVal.beq : PyVal → PyVal → Bool
  | .none, .none => true
  | .bool a, .bool b => a == b
  | .num a, .num b => a == b
  | .str a, .str b => a == b
  | .list a, .list b => PyVal.beqList a b
  | .dict a, .dict b => PyVal.beqFields a b
  | _, _ => false
/-- Elementwise equality of embedded Python lists. -/
def PyVal.beqList : List PyVal → List PyVal → Bool
  | [], [] => true
  | x :: xs, y :: ys => PyVal.beq x y && PyVal.beqList xs ys
  | _, _ => false
/-- Entrywise equality of embedded Python dicts. -/
def PyVal.beqFields : List (String × PyVal) → List (String × PyVal) → Bool
  | [], [] => true
  | (k1, v1) :: xs, (k2, v2) :: ys => k1 == k2 && PyVal.beq v1 v2 && PyVal.beqFields xs ys
  | _, _ => false
end

/-- Dict lookup: d[k] when present (Python raises KeyError when absent;
callers embed the absent case explicitly). -/
def dget (d : PyDict) (k : String) : Option PyVal :=
  (d.find? (fun p => p.1 = k)).map (fun p => p.2)

/-- Dict item assignment d[k] = v: updates the entry in place when the key is
present (Python dicts keep the original insertion position), appends otherwise. -/
def dset (d : PyDict) (k : String) (v : PyVal) : PyDict :=
  if d.any (fun p => p.1 = k) then
    d.map (fun p => if p.1 = k then (k, v) else p)
  else
    d ++ [(k, v)]

/-- Python d.get(k, default). -/
def dgetD (d : PyDict) (k : String) (default : PyVal) : PyVal :=
  (dget d k).getD default

/-- Python truthiness of an embedded value. -/
def pyTruthy : PyVal → Bool
  | .none => false
  | .bool b => b
  | .num q => !(q == 0)
  | .str s => !(s == "")
  | .list xs => !xs.isEmpty
  | .dict d => !d.isEmpty

/-! Embedding of src/vector_db.py (class VectorDatabase).

The external collaborators are explicit parameters: the embedding model
(models.get_embedding, an OpenAI call that either returns a vector or raises
after logging) appears as an oracle of type String → Except PyErr Vec, and the
outcome of the two file writes performed by VectorDatabase._save appears as an
Option PyErr (some e means the write raised e).  faiss.IndexFlatL2 is a flat
list of vectors searched exactly by squared L2 distance, ascending. -/

/-- An embedding vector (faiss stores float32 rows; modelled exactly over ℚ). -/
abbrev Vec := List ℚ

/-- Squared L2 distance, the metric of faiss.IndexFlatL2. -/
def sqDist (u v : Vec) : ℚ :=
  ((u.zip v).map (fun p => (p.1 - p.2) ^ 2)).sum

/-- Insert a (distance, index) pair into a list sorted by ascending distance,
after all pairs of equal distance. -/
def insertByDist (x : ℚ × Nat) : List (ℚ × Nat) → List (ℚ × Nat)
  | [] => [x]
  | y :: ys => if x.1 < y.1 then x :: y :: ys else y :: insertByDist x ys

/-- Sort (distance, index) pairs by ascending distance. -/
def sortByDist : List (ℚ × Nat) → List (ℚ × Nat)
  | [] => []
  | x :: xs => insertByDist x (sortByDist xs)

/-- The (distance to q, row index) pair of every stored vector, rows indexed
from start. -/
def distPairsFrom (q : Vec) (start : Nat) : List Vec → List (ℚ × Nat)
  | [] => []
  | v :: rest => (sqDist q v, start) :: distPairsFrom q (start + 1) rest

/-- Model of faiss.IndexFlatL2.search: the k stored vectors nearest to the
query, as (squared L2 distance, row index) pairs in ascending distance order. -/
def faissSearch (vectors : List Vec) (q : Vec) (k : Nat) : List (ℚ × Nat) :=
  (sortByDist (distPairsFrom q 0 vectors)).take k

/-- State of a VectorDatabase: the faiss index rows and the parallel
metadata list (self.index, self.metadata). -/
structure VDB where
  index : List Vec
  metadata : List PyDict

/-- Empty database as produced by VectorDatabase._create_new_index. -/
def VDB.empty : VDB := ⟨[], []⟩

/-- VectorDatabase.clear: discards the faiss index and the metadata (and
deletes the persisted files, which live outside this model). -/
def VDB.clear (_ : VDB) : VDB := VDB.empty

/-- VectorDatabase._save (vector_db.py lines 149-163): writes the faiss index
file and the metadata JSON.  Both writes are external; a write failure is
logged and re-raised (the except block ends in a bare raise). -/
def vdb_save (writeErr : Option PyErr) : Except PyErr Unit :=
  match writeErr with
  | some e => Except.error e
  | Option.none => Except.ok Unit.unit

/-- VectorDatabase.add_question (vector_db.py lines 74-107).  Computes the
embedding (may raise), appends the vector to the faiss index, injects 'id'
(the new ordinal, = current metadata length) and 'question' into the caller's
metadata dict, appends it, then runs _save.  Every exception is logged and
re-raised; mutations performed before the raise persist, so the result pairs
the post-call state with the returned ordinal or the raised error. -/
def add_question (embed : String → Except PyErr Vec) (writeErr : Option PyErr)
    (db : VDB) (question : String) (metadata : PyDict) : VDB × Except PyErr Nat :=
  match embed question with
  | Except.error e => (db, Except.error e)
  | Except.ok v =>
    let question_id := db.metadata.length
    let md := dset (dset metadata "id" (PyVal.num question_id)) "question" (PyVal.str question)
    let db' : VDB := ⟨db.index ++ [v], db.metadata ++ [md]⟩
    match vdb_save writeErr with
    | Except.error e => (db', Except.error e)
    | Except.ok _ => (db', Except.ok question_id)

/-- Body of VectorDatabase.search (vector_db.py lines 120-143), the part
inside the try: embed the query (may raise), clamp k to the metadata length,
return [] if it is 0, otherwise look up the k nearest rows and return a copy
of each row's metadata with 'distance' added, in ascending distance order. -/
def search_impl (embed : String → Except PyErr Vec) (db : VDB) (query : String)
    (k : Nat) : Except PyErr (List PyDict) :=
  match embed query with
  | Except.error e => Except.error e
  | Except.ok qv =>
    let k' := min k db.metadata.length
    if k' = 0 then Except.ok []
    else
      Except.ok ((faissSearch db.index qv k').filterMap (fun p =>
        if p.2 < db.metadata.length then
          some (dset (db.metadata.getD p.2 []) "distance" (PyVal.num p.1))
        else Option.none))

/-- VectorDatabase.search (vector_db.py lines 109-147): the whole body is
wrapped in try/except Exception, and on any exception the error is logged and
an empty list is returned — the failure is swallowed at this layer. -/
def search (embed : String → Except PyErr Vec) (db : VDB) (query : String)
    (k : Nat) : List PyDict :=
  match search_impl embed db query k with
  | Except.ok results => results
  | Except.error _ => []

/-- Extract results[0].get('distance', 1.0) as the rational the subsequent
Python comparison < 0.05 uses.  search always stores a number under
'distance'; a non-numeric value would make the Python comparison raise, which
is unreachable from this repository's writes and is modelled as the default. -/
def distOf (r : PyDict) : ℚ :=
  match dget r "distance" with
  | some (PyVal.num q) => q
  | _ => 1

/-- VectorDatabase.get_similar_questions (vector_db.py lines 194-220).
Requests k+1 results when exclude_exact_match is set, drops the first result
iff its distance is < 0.05, truncates to k, and keeps (question, answer)
pairs of the records having both fields. -/
def get_similar_questions (embed : String → Except PyErr Vec) (db : VDB)
    (query : String) (k : Nat) (exclude_exact_match : Bool) :
    List (PyVal × PyVal) :=
  let actual_k := if exclude_exact_match then k + 1 else k
  let results := search embed db query actual_k
  let results :=
    if exclude_exact_match then
      match results with
      | [] => results
      | r0 :: rest => if distOf r0 < (1 / 20 : ℚ) then rest else results
    else results
  let results := results.take k
  results.filterMap (fun r =>
    match dget r "question", dget r "answer" with
    | some qv, some av => some (qv, av)
    | _, _ => Option.none)

/-- Fold of successful add_question calls (total embedder, no write error),
starting from a given database: the successive adds performed by
main.init_vector_db / VectorDatabase.load_questions_from_json. -/
def buildFrom (embed : String → Vec) (db : VDB) : List (String × PyDict) → VDB
  | [] => db
  | (q, md) :: rest =>
      buildFrom embed (add_question (fun t => Except.ok (embed t)) Option.none db q md).1 rest

/-- Database built by adding the given (question, metadata) items to an
empty index with a total embedder. -/
def buildDB (embed : String → Vec) (items : List (String × PyDict)) : VDB :=
  buildFrom embed VDB.empty items

/-- Metadata record stored for the i-th added item: the caller's dict with
'id' = i and 'question' = the question text injected. -/
def injectedRecord (i : Nat) (item : String × PyDict) : PyDict :=
  dset (dset item.2 "id" (PyVal.num i)) "question" (PyVal.str item.1)

/-- Metadata records produced by adding the items when start records are
already present. -/
def injectedAll (start : Nat) : List (String × PyDict) → List PyDict
  | [] => []
  | a :: rest => injectedRecord start a :: injectedAll (start + 1) rest

/-! Embedding of src/sqlite_backup.py (class SQLiteBackup).

The sqlite driver is external: each backup method's cursor.execute/commit
block is a try/except sqlite3.Error that logs, rolls back and re-raises, so
the driver outcome appears as an Option PyErr oracle (some e = the statement
raised e, in which case the rollback leaves the table unchanged).  INSERT OR
REPLACE on a UNIQUE key deletes any conflicting row and inserts the new one;
rows are modelled as a list, replace-then-append. -/

/-- Python X.get(k, default) where X is expected to be a dict
(a non-dict receiver would raise AttributeError; unreachable from this
repository's callers, modelled as the default). -/
def pyGetD (v : PyVal) (k : String) (default : PyVal) : PyVal :=
  match v with
  | PyVal.dict d => dgetD d k default
  | _ => default

/-- One row of the evaluation_results table (schema in init_db,
sqlite_backup.py lines 38-59), UNIQUE(question_id, strategy, session_id). -/
structure EvalRow where
  question_id : PyVal
  strategy : String
  dataset : PyVal
  model : PyVal
  question : PyVal
  reference_answer : PyVal
  model_answer : PyVal
  reasoning : PyVal
  category : PyVal
  difficulty : PyVal
  accuracy_score : PyVal
  accuracy_explanation : PyVal
  reasoning_score : PyVal
  reasoning_explanation : PyVal
  timestamp : PyVal
  session_id : String

/-- Conflict test for the UNIQUE(question_id, strategy, session_id) key. -/
def EvalRow.sameKey (r r' : EvalRow) : Bool :=
  PyVal.beq r.question_id r'.question_id && r.strategy == r'.strategy &&
    r.session_id == r'.session_id

/-- INSERT OR REPLACE into evaluation_results: drop any row with the same
uniqueness key, then insert. -/
def upsertEval (table : List EvalRow) (row : EvalRow) : List EvalRow :=
  table.filter (fun r => !EvalRow.sameKey r row) ++ [row]

/-- SQLiteBackup.backup_evaluation_result (sqlite_backup.py lines 118-171).
Builds the row from the record dict — note the question_id column is filled
from result.get('id', ''), not from the record's 'question_id' field — and
INSERT OR REPLACEs it; a sqlite error is logged, rolled back and re-raised. -/
def backup_evaluation_result (dbErr : Option PyErr) (now : ℚ)
    (table : List EvalRow) (result : PyDict) (strategy session_id : String)
    (dataset model : PyVal) : Except PyErr (List EvalRow) :=
  match dbErr with
  | some e => Except.error e
  | Option.none =>
    let metrics := dgetD result "metrics" (PyVal.dict [])
    let accuracy := pyGetD metrics "accuracy" (PyVal.dict [])
    let reasoning := pyGetD metrics "reasoning_quality" (PyVal.dict [])
    Except.ok (upsertEval table
      { question_id := dgetD result "id" (PyVal.str "")
        strategy := strategy
        dataset := dataset
        model := model
        question := dgetD result "question" (PyVal.str "")
        reference_answer := dgetD result "reference_answer" (PyVal.str "")
        model_answer := dgetD result "model_answer" (PyVal.str "")
        reasoning := dgetD result "reasoning" (PyVal.str "")
        category := dgetD result "category" (PyVal.str "")
        difficulty := dgetD result "difficulty" (PyVal.str "")
        accuracy_score := pyGetD accuracy "score" (PyVal.num 0)
        accuracy_explanation := pyGetD accuracy "explanation" (PyVal.str "")
        reasoning_score := pyGetD reasoning "score" (PyVal.num 0)
        reasoning_explanation := pyGetD reasoning "explanation" (PyVal.str "")
        timestamp := dgetD result "timestamp" (PyVal.num now)
        session_id := session_id })

/-- One row of the overall_metrics table, UNIQUE(session_id, strategy). -/
structure MetricRow where
  session_id : String
  strategy : String
  total_questions : PyVal
  avg_accuracy : PyVal
  avg_reasoning_quality : PyVal
  metrics_json : PyVal
  timestamp : ℚ

/-- SQLiteBackup.backup_overall_metrics (sqlite_backup.py lines 239-273). -/
def backup_overall_metrics (dbErr : Option PyErr) (now : ℚ)
    (table : List MetricRow) (metrics : PyVal) (strategy session_id : String) :
    Except PyErr (List MetricRow) :=
  match dbErr with
  | some e => Except.error e
  | Option.none =>
    Except.ok (table.filter
        (fun r => !(r.session_id == session_id && r.strategy == strategy)) ++
      [{ session_id := session_id
         strategy := strategy
         total_questions := pyGetD metrics "total_questions" (PyVal.num 0)
         avg_accuracy :=
           pyGetD (pyGetD (pyGetD metrics "metrics" (PyVal.dict [])) "accuracy"
             (PyVal.dict [])) "average_score" (PyVal.num 0)
         avg_reasoning_quality :=
           pyGetD (pyGetD (pyGetD metrics "metrics" (PyVal.dict [])) "reasoning_quality"
             (PyVal.dict [])) "average_score" (PyVal.num 0)
         metrics_json := metrics
         timestamp := now }])

/-- One row of the sessions table, PRIMARY KEY session_id. -/
structure SessionRow where
  session_id : String
  resultPrefixField : PyVal
  dataset : PyVal
  model : PyVal
  start_time : PyVal
  end_time : PyVal
  total_questions : Nat
  metadataJson : PyVal

/-- SQLiteBackup.backup_session (sqlite_backup.py lines 275-318); start_time
defaults to the current time when falsy (Python: start_time or now). -/
def backup_session (dbErr : Option PyErr) (now : ℚ) (table : List SessionRow)
    (session_id : String) (resultPrefixVal dataset model : PyVal)
    (start_time end_time : PyVal) (total_questions : Nat) (metadata : PyVal) :
    Except PyErr (List SessionRow) :=
  match dbErr with
  | some e => Except.error e
  | Option.none =>
    Except.ok (table.filter (fun r => !(r.session_id == session_id)) ++
      [{ session_id := session_id
         resultPrefixField := resultPrefixVal
         dataset := dataset
         model := model
         start_time := if pyTruthy start_time then start_time else PyVal.num now
         end_time := end_time
         total_questions := total_questions
         metadataJson := if pyTruthy metadata then metadata else PyVal.dict [] }])

/-- The four tables created by SQLiteBackup.init_db (strategy_metadata is
untouched by backup_all_results and kept for completeness). -/
structure BackupDB where
  evaluation_results : List EvalRow
  overall_metrics : List MetricRow
  sessions : List SessionRow
  strategy_metadata : List (String × String)

/-- Freshly initialized database. -/
def BackupDB.empty : BackupDB := ⟨[], [], [], []⟩

/-- Inner loop of backup_all_results over one strategy's record list: each
record is upserted in turn and total_questions is incremented; a raise from
backup_evaluation_result propagates (backup_all_results has no handler). -/
def backupRecordList (dbErr : Option PyErr) (now : ℚ) (table : List EvalRow)
    (total : Nat) (records : List PyDict) (strategy session_id : String)
    (dataset model : PyVal) : Except PyErr (List EvalRow × Nat) :=
  match records with
  | [] => Except.ok (table, total)
  | r :: rest =>
    match backup_evaluation_result dbErr now table r strategy session_id dataset model with
    | Except.error e => Except.error e
    | Except.ok t => backupRecordList dbErr now t (total + 1) rest strategy session_id dataset model

/-- Outer loop of backup_all_results over the strategies of the results
mapping, skipping the 'timestamp' and 'overall_metrics' keys. -/
def backupAllEval (dbErr : Option PyErr) (now : ℚ) (table : List EvalRow)
    (total : Nat) (results : List (String × List PyDict)) (session_id : String)
    (dataset model : PyVal) : Except PyErr (List EvalRow × Nat) :=
  match results with
  | [] => Except.ok (table, total)
  | (strategy, records) :: rest =>
    if strategy = "timestamp" ∨ strategy = "overall_metrics" then
      backupAllEval dbErr now table total rest session_id dataset model
    else
      match backupRecordList dbErr now table total records strategy session_id dataset model with
      | Except.error e => Except.error e
      | Except.ok (t, tot) => backupAllEval dbErr now t tot rest session_id dataset model

/-- Loop of backup_all_results over results['overall_metrics'].items(). -/
def backupAllMetrics (dbErr : Option PyErr) (now : ℚ) (table : List MetricRow)
    (overall : List (String × PyVal)) (session_id : String) :
    Except PyErr (List MetricRow) :=
  match overall with
  | [] => Except.ok table
  | (strategy, metrics) :: rest =>
    match backup_overall_metrics dbErr now table metrics strategy session_id with
    | Except.error e => Except.error e
    | Except.ok t => backupAllMetrics dbErr now t rest session_id

/-- SQLiteBackup.backup_all_results (sqlite_backup.py lines 320-355): upsert
every record of every strategy (keys 'timestamp'/'overall_metrics' skipped),
then one overall-metric row per strategy of results.get('overall_metrics')
(passed here as the separate argument overall, matching the declared type
Dict[str, List[Dict]] of results), then one session row with the counted
total; now1/now2 are the entry/exit clock readings. -/
def backup_all_results (dbErr : Option PyErr) (now1 now2 : ℚ) (db : BackupDB)
    (results : List (String × List PyDict)) (overall : List (String × PyVal))
    (session_id : String) (dataset model : PyVal) : Except PyErr BackupDB :=
  match backupAllEval dbErr now1 db.evaluation_results 0 results session_id dataset model with
  | Except.error e => Except.error e
  | Except.ok (table, total) =>
    match backupAllMetrics dbErr now2 db.overall_metrics overall session_id with
    | Except.error e => Except.error e
    | Except.ok mtable =>
      match backup_session dbErr now2 db.sessions session_id PyVal.none dataset model
          (PyVal.num now1) (PyVal.num now2) total PyVal.none with
      | Except.error e => Except.error e
      | Except.ok stable =>
        Except.ok { db with evaluation_results := table, overall_metrics := mtable,
                            sessions := stable }

/-! Embedding of src/evaluation.py (class Evaluator).

self.results is a Python dict mapping strategy name to the list of evaluation
records, embedded as an insertion-ordered association list whose values are
PyVal (the values are always lists of dicts when produced by evaluate_answer,
but the JSON file reloaded by save_results may in principle hold anything).
The judge model (models.evaluate_response, which never raises — see the
Models section) appears as oracle values judgeAcc/judgeReas; float() and
json.load belong to the Python runtime and appear as oracles where their
internals do not matter. -/

/-- Keys of config.EVALUATION_METRICS (config.py). -/
def EVALUATION_METRICS : List String := ["accuracy", "reasoning_quality"]

/-- Python subscription v[k] with a string key: KeyError on a dict without
the key, TypeError on any non-dict. -/
def pySubscript : PyVal → String → Except PyErr PyVal
  | PyVal.dict d, k =>
    match dget d k with
    | some v => Except.ok v
    | Option.none => Except.error PyErr.keyError
  | _, _ => Except.error PyErr.typeError

/-- Python subscription v[k] inside an except (ValueError, TypeError,
KeyError) handler: the raised cases collapse to none. -/
def pySubscriptOpt : PyVal → String → Option PyVal
  | PyVal.dict d, k => dget d k
  | _, _ => Option.none

/-- Python v[:200] succeeds on sequences only (str, list). -/
def sliceable : PyVal → Bool
  | PyVal.str _ => true
  | PyVal.list _ => true
  | _ => false

/-- eval_result['metrics'][name] = v on the record built by evaluate_answer
(whose 'metrics' starts as the empty dict). -/
def setMetric (ev : PyDict) (name : String) (v : PyVal) : PyDict :=
  dset ev "metrics"
    (match dgetD ev "metrics" (PyVal.dict []) with
     | PyVal.dict m => PyVal.dict (dset m name v)
     | other => other)

/-- self.results[strategy_name].append(eval_result) after the
if-absent-insert-[] guard (evaluation.py lines 124-127); appending to a
non-list value raises AttributeError. -/
def appendResult (results : List (String × PyVal)) (strategy_name : String)
    (ev : PyDict) : Except PyErr (List (String × PyVal)) :=
  match dget results strategy_name with
  | some (PyVal.list xs) =>
    Except.ok (dset results strategy_name (PyVal.list (xs ++ [PyVal.dict ev])))
  | Option.none => Except.ok (results ++ [(strategy_name, PyVal.list [PyVal.dict ev])])
  | some _ => Except.error PyErr.attributeError

/-- Accuracy part of evaluate_answer (evaluation.py lines 92-103): store the
judge result under metrics.accuracy, then the two log lines subscript it with
'score' and 'explanation' (raising on a malformed judge result). -/
def evalAccuracyStep (judgeAcc : PyVal) (metricsCfg : List String) (ev : PyDict) :
    Except PyErr PyDict :=
  if "accuracy" ∈ metricsCfg then
    let ev1 := setMetric ev "accuracy" judgeAcc
    match pySubscript judgeAcc "score", pySubscript judgeAcc "explanation" with
    | Except.error e, _ => Except.error e
    | _, Except.error e => Except.error e
    | Except.ok _, Except.ok _ => Except.ok ev1
  else Except.ok ev

/-- Reasoning-quality part of evaluate_answer (evaluation.py lines 105-121):
runs when configured and has_reasoning is truthy; with truthy reasoning it
first logs reasoning[:200] (TypeError on a non-sliceable value), then stores
the judge result and subscripts it for the log lines; with falsy reasoning it
only logs a warning. -/
def evalReasoningStep (judgeReas : PyVal) (metricsCfg : List String)
    (model_response : PyDict) (ev : PyDict) : Except PyErr PyDict :=
  if "reasoning_quality" ∈ metricsCfg ∧
      pyTruthy (dgetD model_response "has_reasoning" (PyVal.bool false)) then
    let reasoning := dgetD model_response "reasoning" PyVal.none
    if pyTruthy reasoning then
      if sliceable reasoning then
        let ev1 := setMetric ev "reasoning_quality" judgeReas
        match pySubscript judgeReas "score", pySubscript judgeReas "explanation" with
        | Except.error e, _ => Except.error e
        | _, Except.error e => Except.error e
        | Except.ok _, Except.ok _ => Except.ok ev1
      else Except.error PyErr.typeError
    else Except.ok ev
  else Except.ok ev

/-- Evaluator.evaluate_answer (evaluation.py lines 46-130): build the record,
compute the metrics, append the record to self.results and return it.  A
raise in the metric steps happens before the append, so the state is
unchanged on error; judgeAcc/judgeReas are the judge-model collaborator's
returns for the two evaluate_response calls. -/
def evaluate_answer (judgeAcc judgeReas : PyVal) (metricsCfg : List String)
    (now : ℚ) (results : List (String × PyVal))
    (question reference_answer : PyVal) (model_response : PyDict)
    (strategy_name : String) (question_id : PyVal)
    (question_category question_difficulty : PyVal) :
    (List (String × PyVal)) × Except PyErr PyDict :=
  let eval0 : PyDict := [
    ("question_id", question_id), ("question", question),
    ("reference_answer", reference_answer),
    ("model_answer", dgetD model_response "answer" (PyVal.str "")),
    ("full_response", dgetD model_response "full_response" (PyVal.str "")),
    ("has_reasoning", dgetD model_response "has_reasoning" (PyVal.bool false)),
    ("reasoning", dgetD model_response "reasoning" PyVal.none),
    ("strategy", PyVal.str strategy_name),
    ("category", question_category), ("difficulty", question_difficulty),
    ("metrics", PyVal.dict []), ("timestamp", PyVal.num now)]
  match evalAccuracyStep judgeAcc metricsCfg eval0 with
  | Except.error e => (results, Except.error e)
  | Except.ok ev1 =>
    match evalReasoningStep judgeReas metricsCfg model_response ev1 with
    | Except.error e => (results, Except.error e)
    | Except.ok ev2 =>
      match appendResult results strategy_name ev2 with
      | Except.error e => (results, Except.error e)
      | Except.ok results' => (results', Except.ok ev2)

/-- Bool test for pat being a contiguous substring. -/
def listInfixOf (pat : List Char) : List Char → Bool
  | [] => pat.isEmpty
  | c :: rest => pat.isPrefixOf (c :: rest) || listInfixOf pat rest

/-- Python key in v: key lookup for dicts, == scan for lists, substring test
for strings, TypeError for non-containers (None, numbers, bools). -/
def pyIn (key : String) : PyVal → Except PyErr Bool
  | PyVal.dict d => Except.ok (d.any (fun p => p.1 == key))
  | PyVal.list xs =>
    Except.ok (xs.any (fun v => match v with | PyVal.str s => s == key | _ => false))
  | PyVal.str s => Except.ok (listInfixOf key.toList s.toList)
  | _ => Except.error PyErr.typeError

/-- The try-block float(e['metrics'][metricKey]['score']) of the score loops
(evaluation.py lines 160-164): KeyError, TypeError and ValueError are caught,
collapsing every failing case to none; toFloat is the float() builtin on the
score value (returning none where float() raises). -/
def tryScore (toFloat : PyVal → Option ℚ) (mv : PyVal) (metricKey : String) :
    Option ℚ := do
  let acc ← pySubscriptOpt mv metricKey
  let sc ← pySubscriptOpt acc "score"
  toFloat sc

/-- One iteration of a score loop (evaluation.py lines 158-164): the guard
isinstance(e, dict) and 'metrics' in e and metricKey in e['metrics'] runs
outside the try, so the membership test on a non-container e['metrics']
raises TypeError out of the whole computation. -/
def recordScore (toFloat : PyVal → Option ℚ) (metricKey : String) (e : PyVal) :
    Except PyErr (Option ℚ) :=
  match e with
  | PyVal.dict d =>
    match dget d "metrics" with
    | some mv =>
      match pyIn metricKey mv with
      | Except.error err => Except.error err
      | Except.ok true => Except.ok (tryScore toFloat mv metricKey)
      | Except.ok false => Except.ok Option.none
    | Option.none => Except.ok Option.none
  | _ => Except.ok Option.none

/-- A full score loop over the records of one strategy. -/
def collectScores (toFloat : PyVal → Option ℚ) (metricKey : String) :
    List PyVal → Except PyErr (List ℚ)
  | [] => Except.ok []
  | e :: rest =>
    match recordScore toFloat metricKey e with
    | Except.error err => Except.error err
    | Except.ok s =>
      match collectScores toFloat metricKey rest with
      | Except.error err => Except.error err
      | Except.ok tail =>
        Except.ok (match s with | some q => q :: tail | Option.none => tail)

/-- Average/count summary stored when at least one score was collected. -/
structure MetricAvg where
  average_score : ℚ
  count : Nat
  deriving DecidableEq, Repr

/-- Summary of a collected score list (evaluation.py lines 166-171). -/
def avgOf (scores : List ℚ) : Option MetricAvg :=
  if scores.isEmpty then Option.none
  else some { average_score := scores.sum / scores.length, count := scores.length }

/-- Filter used by the breakdown loops: isinstance(e, dict) and
e.get(key) == v. -/
def fieldEquals (key : String) (v : PyVal) (e : PyVal) : Bool :=
  match e with
  | PyVal.dict d => PyVal.beq (dgetD d key PyVal.none) v
  | _ => false

/-- One difficulty/category bucket (evaluation.py lines 196-213 / 222-239):
filter the records, collect their accuracy scores, and report (count of
filtered records, average accuracy) when both are non-empty. -/
def breakdownFor (toFloat : PyVal → Option ℚ) (evals : List PyVal)
    (key : String) (v : PyVal) : Except PyErr (Option (Nat × ℚ)) :=
  let filt := evals.filter (fieldEquals key v)
  if filt.isEmpty then Except.ok Option.none
  else
    match collectScores toFloat "accuracy" filt with
    | Except.error err => Except.error err
    | Except.ok scores =>
      Except.ok (if scores.isEmpty then Option.none
        else some (filt.length, scores.sum / scores.length))

/-- Difficulty breakdown over the three fixed difficulty names. -/
def difficultyBreakdown (toFloat : PyVal → Option ℚ) (evals : List PyVal) :
    List String → Except PyErr (List (String × Nat × ℚ))
  | [] => Except.ok []
  | d :: rest =>
    match breakdownFor toFloat evals "difficulty" (PyVal.str d) with
    | Except.error err => Except.error err
    | Except.ok entry =>
      match difficultyBreakdown toFloat evals rest with
      | Except.error err => Except.error err
      | Except.ok tail =>
        Except.ok (match entry with
          | some (c, a) => (d, c, a) :: tail
          | Option.none => tail)

/-- Python set() membership needs hashable elements; lists and dicts raise
TypeError. -/
def hashable : PyVal → Bool
  | PyVal.list _ => false
  | PyVal.dict _ => false
  | _ => true

/-- Deduplicate by Python == keeping first occurrences. -/
def pyDedup : List PyVal → List PyVal
  | [] => []
  | v :: rest =>
    let tail := pyDedup rest
    if tail.any (fun w => PyVal.beq v w) then tail else v :: tail

/-- The category set (evaluation.py line 220): values of truthy
e.get('category') over the dict records; building the set raises TypeError
on an unhashable category value. -/
def categoriesOf (evals : List PyVal) : Except PyErr (List PyVal) :=
  let vals := evals.filterMap (fun e =>
    match e with
    | PyVal.dict d =>
      if pyTruthy (dgetD d "category" PyVal.none)
      then some (dgetD d "category" (PyVal.str "")) else Option.none
    | _ => Option.none)
  if vals.all hashable then Except.ok (pyDedup vals)
  else Except.error PyErr.typeError

/-- Category breakdown over a category list. -/
def categoryBreakdown (toFloat : PyVal → Option ℚ) (evals : List PyVal) :
    List PyVal → Except PyErr (List (PyVal × Nat × ℚ))
  | [] => Except.ok []
  | cat :: rest =>
    match breakdownFor toFloat evals "category" cat with
    | Except.error err => Except.error err
    | Except.ok entry =>
      match categoryBreakdown toFloat evals rest with
      | Except.error err => Except.error err
      | Except.ok tail =>
        Except.ok (match entry with
          | some (c, a) => (cat, c, a) :: tail
          | Option.none => tail)

/-- Per-strategy metrics computed by calculate_overall_metrics. -/
structure StrategyMetrics where
  total_questions : Nat
  accuracy : Option MetricAvg
  reasoning_quality : Option MetricAvg
  difficulty_breakdown : List (String × Nat × ℚ)
  category_breakdown : List (PyVal × Nat × ℚ)

/-- Body of the strategy loop of calculate_overall_metrics (evaluation.py
lines 150-244): accuracy average, reasoning-quality average, difficulty and
category breakdowns, in source order (the first raise wins). -/
def strategyMetricsOf (toFloat : PyVal → Option ℚ) (metricsCfg : List String)
    (evals : List PyVal) : Except PyErr StrategyMetrics :=
  let accExc : Except PyErr (Option MetricAvg) :=
    if "accuracy" ∈ metricsCfg then
      match collectScores toFloat "accuracy" evals with
      | Except.error err => Except.error err
      | Except.ok scores => Except.ok (avgOf scores)
    else Except.ok Option.none
  match accExc with
  | Except.error err => Except.error err
  | Except.ok acc =>
    let reasExc : Except PyErr (Option MetricAvg) :=
      if "reasoning_quality" ∈ metricsCfg then
        match collectScores toFloat "reasoning_quality" evals with
        | Except.error err => Except.error err
        | Except.ok scores => Except.ok (avgOf scores)
      else Except.ok Option.none
    match reasExc with
    | Except.error err => Except.error err
    | Except.ok reas =>
      match difficultyBreakdown toFloat evals ["easy", "medium", "hard"] with
      | Except.error err => Except.error err
      | Except.ok diffs =>
        match categoriesOf evals with
        | Except.error err => Except.error err
        | Except.ok cats =>
          match categoryBreakdown toFloat evals cats with
          | Except.error err => Except.error err
          | Except.ok catsBrk =>
            Except.ok { total_questions := evals.length, accuracy := acc,
                        reasoning_quality := reas, difficulty_breakdown := diffs,
                        category_breakdown := catsBrk }

/-- Evaluator.calculate_overall_metrics (evaluation.py lines 132-247):
iterate self.results.items(), skip non-list values with a warning, compute
per-strategy metrics; the defensive try only wraps the float conversions, so
a TypeError from a membership test or from set() propagates out. -/
def calculate_overall_metrics (toFloat : PyVal → Option ℚ)
    (metricsCfg : List String) :
    List (String × PyVal) → Except PyErr (List (String × StrategyMetrics))
  | [] => Except.ok []
  | (strategy, evs) :: rest =>
    match evs with
    | PyVal.list evals =>
      match strategyMetricsOf toFloat metricsCfg evals with
      | Except.error err => Except.error err
      | Except.ok sm =>
        match calculate_overall_metrics toFloat metricsCfg rest with
        | Except.error err => Except.error err
        | Except.ok tail => Except.ok ((strategy, sm) :: tail)
    | _ => calculate_overall_metrics toFloat metricsCfg rest

/-- The attribute call existing_results[strategy].update(strategy_results)
of save_results: JSON objects deserialize to dicts, whose update merges
keywise; JSON arrays deserialize to lists, which have no update attribute,
so the call raises AttributeError (a dict receiver updated from this
repository's list values would raise ValueError). -/
def pyUpdate : PyVal → PyVal → Except PyErr PyVal
  | PyVal.dict d, PyVal.dict d2 =>
    Except.ok (PyVal.dict (d2.foldl (fun acc p => dset acc p.1 p.2) d))
  | PyVal.dict _, _ => Except.error PyErr.valueError
  | _, _ => Except.error PyErr.attributeError

/-- Merge loop of save_results (evaluation.py lines 259-265): for each
in-memory strategy, update the existing entry in place when the strategy is
already on disk, insert it otherwise. -/
def mergeExisting : List (String × PyVal) → List (String × PyVal) →
    Except PyErr (List (String × PyVal))
  | existing, [] => Except.ok existing
  | existing, (strategy, sr) :: rest =>
    match dget existing strategy with
    | some old =>
      match pyUpdate old sr with
      | Except.error e => Except.error e
      | Except.ok updated => mergeExisting (dset existing strategy updated) rest
    | Option.none => mergeExisting (existing ++ [(strategy, sr)]) rest

/-- Observable outcome of one save_results call: the content written to the
result file (none when the write raised), self.results afterwards, whether
the merge-failure warning was logged, whether the outer error log ran, and
the exception escaping to the caller. -/
structure SaveOutcome where
  written : Option (List (String × PyVal))
  results : List (String × PyVal)
  warnedMergeFailure : Bool
  loggedError : Bool
  raised : Option PyErr

/-- Evaluator.save_results (evaluation.py lines 249-278).  fileState is the
external read of the result file: none = the file does not exist, some
(error e) = open/json.load raised e, some (ok m) = the parsed JSON object.
The merge runs in an inner try whose handler logs a warning and keeps the
in-memory results; the final json.dump outcome is writeErr, and the outer
handler only logs — no exception ever escapes (raised is always none). -/
def save_results (fileState : Option (Except PyErr (List (String × PyVal))))
    (writeErr : Option PyErr) (results : List (String × PyVal)) : SaveOutcome :=
  let merged : List (String × PyVal) × Bool :=
    match fileState with
    | Option.none => (results, false)
    | some (Except.error _) => (results, true)
    | some (Except.ok existing) =>
      match mergeExisting existing results with
      | Except.ok m => (m, false)
      | Except.error _ => (results, true)
  match writeErr with
  | some _ =>
    { written := Option.none, results := merged.1, warnedMergeFailure := merged.2,
      loggedError := true, raised := Option.none }
  | Option.none =>
    { written := some merged.1, results := merged.1, warnedMergeFailure := merged.2,
      loggedError := false, raised := Option.none }

/-! Embedding of src/models.py: clean_json_string and evaluate_response.

get_embedding and generate_completion are pure external calls (their retry
loops live inside the collaborator) and appear as oracles elsewhere.
clean_json_string's regex and the two fallback regexes of evaluate_response
are modelled character-exactly; json.loads is the Python stdlib and appears
as an oracle returning none where it raises json.JSONDecodeError. -/

/-- The fence character of Markdown code blocks. -/
def backtickChar : Char := Char.ofNat 96

/-- The double-quote character. -/
def dquoteChar : Char := Char.ofNat 34

/-- Whether the text starts with three fence characters. -/
def isFenceStart : List Char → Bool
  | a :: b :: c :: _ => a == backtickChar && b == backtickChar && c == backtickChar
  | _ => false

/-- Split at the first three-backtick fence: (text before it, text after it). -/
def splitAtFence : List Char → Option (List Char × List Char)
  | [] => Option.none
  | c :: rest =>
    if isFenceStart (c :: rest) then some ([], rest.drop 2)
    else
      match splitAtFence rest with
      | some (a, b) => some (c :: a, b)
      | Option.none => Option.none

/-- models.clean_json_string (models.py lines 143-160): the regex
searches for a fenced block with an optional json language tag and lazily
captured body; the captured body is stripped, and without a match the whole
text is stripped.  Because the capture is lazy, its end is the next fence
after the opening one, and the explicit strip() subsumes the whitespace
consumed around the capture. -/
def clean_json_string (text : String) : String :=
  match splitAtFence text.toList with
  | Option.none => text.trim
  | some (_, rest) =>
    let rest2 := if List.isPrefixOf ['j', 's', 'o', 'n'] rest then rest.drop 4 else rest
    match splitAtFence rest2 with
    | Option.none => text.trim
    | some (mid, _) => (String.mk mid).trim

/-- Regex whitespace class backslash-s. -/
def reSpace (c : Char) : Bool :=
  c == ' ' || c == Char.ofNat 9 || c == Char.ofNat 10 || c == Char.ofNat 13 ||
    c == Char.ofNat 11 || c == Char.ofNat 12

/-- Regex character class of digits and the dot. -/
def digitOrDot (c : Char) : Bool := c.isDigit || c == '.'

/-- The literal quoted score key of the fallback score regex. -/
def scoreLit : List Char := [dquoteChar, 's', 'c', 'o', 'r', 'e', dquoteChar]

/-- The literal quoted explanation key of the fallback explanation regex. -/
def explLit : List Char :=
  [dquoteChar, 'e', 'x', 'p', 'l', 'a', 'n', 'a', 't', 'i', 'o', 'n', dquoteChar]

/-- Drop a literal from the front of the text, if present. -/
def dropLit (lit : List Char) (cs : List Char) : Option (List Char) :=
  if List.isPrefixOf lit cs then some (cs.drop lit.length) else Option.none

/-- After the quoted score key: match whitespace, a colon, whitespace, and a
non-empty maximal run of digits/dots (the captured group). -/
def matchScoreTail (cs : List Char) : Option (List Char) :=
  match cs.dropWhile reSpace with
  | ':' :: cs2 =>
    let run := (cs2.dropWhile reSpace).takeWhile digitOrDot
    if run.isEmpty then Option.none else some run
  | _ => Option.none

/-- re.search for the score pattern (models.py line 227): the capture of the
earliest position where the whole pattern matches. -/
def findScore : List Char → Option (List Char)
  | [] => Option.none
  | c :: rest =>
    match dropLit scoreLit (c :: rest) with
    | some tail =>
      match matchScoreTail tail with
      | some run => some run
      | Option.none => findScore rest
    | Option.none => findScore rest

/-- After the quoted explanation key: whitespace, colon, whitespace, an
opening quote, a non-empty run of non-quote characters (the capture), and
the closing quote. -/
def matchExplTail (cs : List Char) : Option (List Char) :=
  match cs.dropWhile reSpace with
  | ':' :: cs2 =>
    match cs2.dropWhile reSpace with
    | q :: cs3 =>
      if q == dquoteChar then
        let run := cs3.takeWhile (fun c => !(c == dquoteChar))
        if run.isEmpty then Option.none
        else if (cs3.drop run.length).isEmpty then Option.none
        else some run
      else Option.none
    | [] => Option.none
  | _ => Option.none

/-- re.search for the explanation pattern (models.py line 230). -/
def findExplanation : List Char → Option (List Char)
  | [] => Option.none
  | c :: rest =>
    match dropLit explLit (c :: rest) with
    | some tail =>
      match matchExplTail tail with
      | some run => some run
      | Option.none => findExplanation rest
    | Option.none => findExplanation rest

/-- Decimal value of a digit run. -/
def digitsToNat (cs : List Char) : Nat :=
  cs.foldl (fun n c => 10 * n + (c.toNat - 48)) 0

/-- Python float() on a string matched by [0-9.]+: defined iff it has at
most one dot and at least one digit (float('.') and float('1..2') raise
ValueError, caught by the surrounding except). -/
def parseFloatRun (cs : List Char) : Option ℚ :=
  if cs.count '.' ≤ 1 ∧ cs.any Char.isDigit then
    let ip := cs.takeWhile (fun c => !(c == '.'))
    let fp := (cs.dropWhile (fun c => !(c == '.'))).drop 1
    some ((digitsToNat ip : ℚ) + (digitsToNat fp : ℚ) / ((10 : ℚ) ^ fp.length))
  else Option.none

/-- The zero-score record returned when the structured parse and the regex
fallback both fail. -/
def scoreZeroParse : PyVal :=
  PyVal.dict [("score", PyVal.num 0), ("explanation", PyVal.str "无法解析JSON评估结果")]

/-- Body of models.evaluate_response (the outer try, models.py lines
182-238): validate the metric (unknown metrics raise ValueError), call the
judge model (gen is the generate_completion outcome, raising after its
bounded retries), then parse: json.loads on the cleaned response, falling
back on decode failure to the score regex on the raw response (an
unparseable matched number is caught and yields the zero-score record). -/
def evaluate_response_body (jsonLoads : String → Option PyVal)
    (gen : Except PyErr String) (metric : String) : Except PyErr PyVal :=
  if metric ≠ "accuracy" ∧ metric ≠ "reasoning_quality" then
    Except.error PyErr.valueError
  else
    match gen with
    | Except.error e => Except.error e
    | Except.ok response =>
      match jsonLoads (clean_json_string response) with
      | some result => Except.ok result
      | Option.none =>
        match findScore response.toList with
        | some run =>
          match parseFloatRun run with
          | some score =>
            let explanation :=
              match findExplanation response.toList with
              | some e => String.mk e
              | Option.none => "无法提取解释"
            Except.ok (PyVal.dict
              [("score", PyVal.num score), ("explanation", PyVal.str explanation)])
          | Option.none => Except.ok scoreZeroParse
        | Option.none => Except.ok scoreZeroParse

/-- models.evaluate_response (models.py lines 162-243): the whole body is
wrapped in try/except Exception returning a zero-score record with a
diagnostic explanation, so the function never raises. -/
def evaluate_response (jsonLoads : String → Option PyVal)
    (gen : Except PyErr String) (metric : String) : PyVal :=
  match evaluate_response_body jsonLoads gen metric with
  | Except.ok v => v
  | Except.error _ =>
    PyVal.dict [("score", PyVal.num 0), ("explanation", PyVal.str "评估过程出错")]

/-! Embedding of src/main.py: process_question_strategy and the
single-threaded path of run_evaluation (the worker-pool path runs the same
task function and differs only in scheduling).  MOCK_MODE is off (the real
generate_completion path).  Each task's external calls are an oracle:
genPrompt (strategy.generate_prompt), modelCall (generate_completion after
its internal retries), processResponse (strategy.process_response), logConv
(conversation_logger.log_conversation, a filesystem write), judgeAcc and
judgeReas (the two evaluate_response returns inside evaluate_answer — total,
by design of evaluate_response), and postLog (the glob/stat log-file lookup
of main.py lines 230-254; conversation_logger.add_evaluation_metrics itself
catches all its exceptions and returns False). -/

/-- The aggregator state shared by tasks: Evaluator.results. -/
abbrev EvalResults := List (String × PyVal)

/-- Python str() rendering, used only when a strategy's process_response
returns a non-dict which is wrapped with answer = str(value); no property
depends on the rendered text. -/
def pyStrSimple : PyVal → String
  | PyVal.str s => s
  | PyVal.none => "None"
  | PyVal.bool true => "True"
  | PyVal.bool false => "False"
  | _ => "<value>"

/-- Per-task external-call outcomes. -/
structure TaskOracle where
  genPrompt : Except PyErr String
  modelCall : Except PyErr String
  processResponse : Except PyErr PyVal
  logConv : Except PyErr Unit
  judgeAcc : PyVal
  judgeReas : PyVal
  postLog : Except PyErr Unit

/-- The per-task result dict of process_question_strategy. -/
structure TaskResult where
  question_id : PyVal
  strategy_name : String
  success : Bool
  errorField : Option PyErr
  eval_result : Option PyDict

/-- Default processed response used when strategy.process_response raises
(main.py lines 189-197). -/
def defaultProcessed (response : String) : PyDict :=
  [("full_response", PyVal.str response), ("answer", PyVal.str response),
   ("has_reasoning", PyVal.bool false), ("reasoning", PyVal.none)]

/-- Coercion and backfill of a successful process_response value (main.py
lines 166-187): wrap a non-dict, then fill any of answer / full_response /
has_reasoning / reasoning that are missing. -/
def coerceProcessed (response : String) (pr : PyVal) : PyDict :=
  let d0 : PyDict :=
    match pr with
    | PyVal.dict d => d
    | other => [("full_response", PyVal.str response),
                ("answer", PyVal.str (pyStrSimple other)),
                ("has_reasoning", PyVal.bool false)]
  let d1 := if (dget d0 "answer").isSome then d0 else dset d0 "answer" (PyVal.str response)
  let d2 := if (dget d1 "full_response").isSome then d1
            else dset d1 "full_response" (PyVal.str response)
  let d3 := if (dget d2 "has_reasoning").isSome then d2
            else dset d2 "has_reasoning" (PyVal.bool false)
  if (dget d3 "reasoning").isSome then d3 else dset d3 "reasoning" PyVal.none

/-- The log line of main.py line 226: eval_result['metrics']['accuracy']['score']. -/
def accuracyScoreOf (ev : PyDict) : Except PyErr PyVal := do
  let metrics ← pySubscript (PyVal.dict ev) "metrics"
  let acc ← pySubscript metrics "accuracy"
  pySubscript acc "score"

/-- Evaluation-and-reporting phase of a task (main.py lines 214-261), after
the response has been processed and logged: when evaluating, run
evaluate_answer (which appends the record on success), then the accuracy log
line (a subscript chain that can raise after the append), then — with a
conversation logger — the log-file lookup; only then is success set. -/
def processEvalPhase (o : TaskOracle) (metricsCfg : List String) (now : ℚ)
    (results : EvalResults) (question_text reference_answer category difficulty : PyVal)
    (processed : PyDict) (strategy_name : String) (question_id : PyVal)
    (tr0 : TaskResult) (hasEvaluator hasLogger log_only : Bool) :
    EvalResults × TaskResult :=
  if !log_only && hasEvaluator then
    match evaluate_answer o.judgeAcc o.judgeReas metricsCfg now results
        question_text reference_answer processed strategy_name question_id
        category difficulty with
    | (results', Except.error e) => (results', { tr0 with errorField := some e })
    | (results', Except.ok eval_result) =>
      match accuracyScoreOf eval_result with
      | Except.error e => (results', { tr0 with errorField := some e })
      | Except.ok _ =>
        if hasLogger then
          match o.postLog with
          | Except.error e => (results', { tr0 with errorField := some e })
          | Except.ok _ =>
            (results', { tr0 with success := true, eval_result := some eval_result })
        else (results', { tr0 with success := true, eval_result := some eval_result })
  else (results, { tr0 with success := true })

/-- Try-block of process_question_strategy (main.py lines 140-261): prompt
generation, model call (both re-raised into the per-task handler), response
processing with its own defensive handler, conversation logging, then the
evaluation phase. -/
def processTry (o : TaskOracle) (metricsCfg : List String) (now : ℚ)
    (results : EvalResults) (question_text reference_answer category difficulty : PyVal)
    (strategy_name : String) (question_id : PyVal) (tr0 : TaskResult)
    (hasEvaluator hasLogger log_only : Bool) : EvalResults × TaskResult :=
  match o.genPrompt with
  | Except.error e => (results, { tr0 with errorField := some e })
  | Except.ok _prompt =>
    match o.modelCall with
    | Except.error e => (results, { tr0 with errorField := some e })
    | Except.ok response =>
      let processed :=
        match o.processResponse with
        | Except.error _ => defaultProcessed response
        | Except.ok pr => coerceProcessed response pr
      let logOutcome : Except PyErr Unit := if hasLogger then o.logConv else Except.ok Unit.unit
      match logOutcome with
      | Except.error e => (results, { tr0 with errorField := some e })
      | Except.ok _ =>
        processEvalPhase o metricsCfg now results question_text reference_answer
          category difficulty processed strategy_name question_id tr0
          hasEvaluator hasLogger log_only

/-- main.process_question_strategy (main.py lines 105-268).  The subscripts
question['id'] and question['question'] run before the try and so propagate
to the caller; everything else is caught into the result dict.  Returns the
aggregator state after the call together with the task's result. -/
def process_question_strategy (o : TaskOracle) (metricsCfg : List String)
    (now : ℚ) (results : EvalResults) (question : PyDict) (strategy_name : String)
    (hasEvaluator hasLogger log_only : Bool) :
    Except PyErr (EvalResults × TaskResult) :=
  match dget question "id" with
  | Option.none => Except.error PyErr.keyError
  | some question_id =>
    match dget question "question" with
    | Option.none => Except.error PyErr.keyError
    | some question_text =>
      let reference_answer :=
        dgetD question "answer" (dgetD question "reference_answer" (PyVal.str ""))
      let category := dgetD question "category" (PyVal.str "")
      let difficulty := dgetD question "difficulty" (PyVal.str "")
      let tr0 : TaskResult :=
        { question_id := question_id, strategy_name := strategy_name,
          success := false, errorField := Option.none, eval_result := Option.none }
      Except.ok (processTry o metricsCfg now results question_text reference_answer
        category difficulty strategy_name question_id tr0
        hasEvaluator hasLogger log_only)

/-- Outcome of one loop iteration of run_evaluation: the task's result dict,
or the exception its pre-try subscripts raised (caught and logged by the
loop's own handler, main.py lines 359-364). -/
inductive RunReport where
  | completed (tr : TaskResult)
  | crashed (e : PyErr)

/-- The single-threaded evaluation loop (main.py lines 338-364): one
process_question_strategy call per task, each in its own try, the state
threading through. -/
def runTasks (oracle : PyDict → String → TaskOracle) (metricsCfg : List String)
    (now : ℚ) (hasEvaluator hasLogger log_only : Bool) (st : EvalResults) :
    List (PyDict × String) → EvalResults × List RunReport
  | [] => (st, [])
  | (q, s) :: rest =>
    match process_question_strategy (oracle q s) metricsCfg now st q s
        hasEvaluator hasLogger log_only with
    | Except.ok (st', tr) =>
      let next := runTasks oracle metricsCfg now hasEvaluator hasLogger log_only st' rest
      (next.1, RunReport.completed tr :: next.2)
    | Except.error e =>
      let next := runTasks oracle metricsCfg now hasEvaluator hasLogger log_only st rest
      (next.1, RunReport.crashed e :: next.2)

/-- Question filter of run_evaluation (main.py lines 310-313): the list
comprehension subscripts q['id'], raising KeyError on a malformed question. -/
def filterQuestions (questionFilter : List String) :
    List PyDict → Except PyErr (List PyDict)
  | [] => Except.ok []
  | q :: rest =>
    match dget q "id" with
    | Option.none => Except.error PyErr.keyError
    | some idv =>
      match filterQuestions questionFilter rest with
      | Except.error e => Except.error e
      | Except.ok tail =>
        let keep := match idv with
          | PyVal.str s => questionFilter.contains s
          | _ => false
        Except.ok (if keep then q :: tail else tail)

/-- main.run_evaluation (main.py lines 270-412), single-threaded mode:
filter strategies and questions, truncate to max_questions (Python
truthiness: 0 disables the limit), run the Cartesian product question-major,
and return the final aggregator state with the per-task reports.  The final
backup/summary block (lines 414-427) wraps its backup call in its own
try/except and is outside the cited loop. -/
def run_evaluation (oracle : PyDict → String → TaskOracle)
    (metricsCfg : List String) (now : ℚ) (st0 : EvalResults)
    (questions : List PyDict) (strategies : List String)
    (strategy_filter question_filter : Option (List String))
    (max_questions : Option Nat) (log_only hasEvaluator hasLogger : Bool) :
    Except PyErr (EvalResults × List RunReport) :=
  let fs := match strategy_filter with
    | some f => strategies.filter (fun s => f.contains s)
    | Option.none => strategies
  let fqExc := match question_filter with
    | some f => filterQuestions f questions
    | Option.none => Except.ok questions
  match fqExc with
  | Except.error e => Except.error e
  | Except.ok fq =>
    let fq := match max_questions with
      | some m => if m ≠ 0 ∧ m < fq.length then fq.take m else fq
      | Option.none => fq
    let tasks := fq.flatMap (fun q => fs.map (fun s => (q, s)))
    Except.ok (runTasks oracle metricsCfg now hasEvaluator hasLogger log_only st0 tasks)

/-- Number of records held by the aggregator state. -/
def countRecords (st : EvalResults) : Nat :=
  (st.map (fun p => match p.2 with | PyVal.list xs => xs.length | _ => 0)).sum

/-- Number of tasks reported failed: a crashed iteration or a result dict
with success = False. -/
def countFailures (rs : List RunReport) : Nat :=
  (rs.filter (fun r =>
    match r with
    | RunReport.crashed _ => true
    | RunReport.completed tr => !tr.success)).length

/-! Heap-level model of VectorDatabase.search, refining the pure model above
to make object identity observable: dict objects live in a heap addressed by
allocation order, self.metadata holds addresses, and the loop body
result = self.metadata[idx].copy(); result['distance'] = ... allocates a
fresh copy and mutates only that copy.  This witnesses the frame property:
search writes no existing heap cell and returns only fresh addresses. -/

/-- A heap of Python dict objects; the address of an object is its
allocation index. -/
structure Heap where
  dicts : List PyDict

/-- Allocate a new dict object, returning its address. -/
def Heap.alloc (h : Heap) (d : PyDict) : Heap × Nat :=
  (⟨h.dicts ++ [d]⟩, h.dicts.length)

/-- Read the object at an address. -/
def Heap.read (h : Heap) (a : Nat) : PyDict :=
  h.dicts.getD a []

/-- Overwrite the object at an address. -/
def Heap.write (h : Heap) (a : Nat) (d : PyDict) : Heap :=
  ⟨h.dicts.set a d⟩

/-- VectorDatabase state with by-reference metadata: the faiss rows plus the
addresses of the metadata dicts. -/
structure VDBRef where
  index : List Vec
  metadataAddrs : List Nat

/-- Result-building loop of search (vector_db.py lines 135-140) on the heap:
for each hit, copy the stored metadata dict into a fresh object and set
'distance' on the copy. -/
def searchRefLoop (db : VDBRef) (h : Heap) : List (ℚ × Nat) → Heap × List Nat
  | [] => (h, [])
  | (d, idx) :: rest =>
    if idx < db.metadataAddrs.length then
      let alloc := h.alloc (h.read (db.metadataAddrs.getD idx 0))
      let h2 := alloc.1.write alloc.2 (dset (alloc.1.read alloc.2) "distance" (PyVal.num d))
      let next := searchRefLoop db h2 rest
      (next.1, alloc.2 :: next.2)
    else searchRefLoop db h rest

/-- VectorDatabase.search on the heap model (vector_db.py lines 109-147):
embedding failure is swallowed to an empty result before anything is
allocated; otherwise k is clamped, the nearest rows are found, and the
result copies are allocated. -/
def search_ref (embed : String → Except PyErr Vec) (db : VDBRef) (h : Heap)
    (query : String) (k : Nat) : Heap × VDBRef × List Nat :=
  match embed query with
  | Except.error _ => (h, db, [])
  | Except.ok qv =>
    let k' := min k db.metadataAddrs.length
    if k' = 0 then (h, db, [])
    else
      let res := searchRefLoop db h (faissSearch db.index qv k')
      (res.1, db, res.2)

/-! Spec-side definitions: reformulations taken from the specification's
words, to be compared with the source-embedded functions, and the predicates
and concrete inputs the claim theorems quantify over. -/

/-- Spec-side description of get_similar (spec section 4.2): request k+1
results when excluding near-exact matches, drop the first result iff its
distance is below the 0.05 threshold, truncate to k, and keep the
(question, answer) pairs of the records having both fields. -/
def getSimilarSpec (embed : String → Except PyErr Vec) (db : VDB)
    (query : String) (k : Nat) (exclude : Bool) : List (PyVal × PyVal) :=
  let fetched := search embed db query (if exclude then k + 1 else k)
  let kept :=
    match fetched with
    | [] => fetched
    | r0 :: rest => if exclude ∧ distOf r0 < (1 / 20 : ℚ) then rest else fetched
  (kept.take k).filterMap (fun r =>
    match dget r "question", dget r "answer" with
    | some qv, some av => some (qv, av)
    | _, _ => Option.none)

/-- Spec-side list of the scores of exactly those records whose
metrics.metricKey.score is present and parses as a number. -/
def wellFormedScores (toFloat : PyVal → Option ℚ) (metricKey : String)
    (evals : List PyVal) : List ℚ :=
  evals.filterMap (fun e =>
    match e with
    | PyVal.dict d => (dget d "metrics").bind (fun mv => tryScore toFloat mv metricKey)
    | _ => Option.none)

/-- A record whose metrics value (when present) supports Python membership
tests, so the guards of the score loops cannot raise. -/
def metricsContainerOk (e : PyVal) : Bool :=
  match e with
  | PyVal.dict d =>
    match dget d "metrics" with
    | some (PyVal.dict _) => true
    | some (PyVal.list _) => true
    | some (PyVal.str _) => true
    | some _ => false
    | Option.none => true
  | _ => true

/-- A record whose truthy category value (when present) is hashable, so the
category set cannot raise. -/
def categoryHashOk : PyVal → Bool
  | PyVal.dict d =>
    if pyTruthy (dgetD d "category" PyVal.none)
    then hashable (dgetD d "category" (PyVal.str "")) else true
  | _ => true

/-- Every list-valued strategy entry holds only aggregation-safe records. -/
def AggregationSafe (results : List (String × PyVal)) : Prop :=
  ∀ p ∈ results, ∀ evals, p.2 = PyVal.list evals →
    ∀ e ∈ evals, metricsContainerOk e = true ∧ categoryHashOk e = true

/-- Invariant of the aggregator state: every strategy maps to a list (as
evaluate_answer guarantees) and strategy keys are unique (it is a dict). -/
def GoodState (st : EvalResults) : Prop :=
  (∀ p ∈ st, ∃ xs, p.2 = PyVal.list xs) ∧ (st.map Prod.fst).Nodup

/-- A question dict with the two fields subscripted before the task's try. -/
def WellQ (q : PyDict) : Prop :=
  (dget q "id").isSome ∧ (dget q "question").isSome

/-- A judge result on which the score/explanation log subscripts succeed. -/
def JudgeOk (v : PyVal) : Prop :=
  (∃ x, pySubscript v "score" = Except.ok x) ∧
    (∃ x, pySubscript v "explanation" = Except.ok x)

/-- The processed-response dict cannot make the reasoning-quality step
raise: when has_reasoning and reasoning are truthy, reasoning is sliceable. -/
def ReasoningSafe (pd : PyDict) : Prop :=
  pyTruthy (dgetD pd "has_reasoning" (PyVal.bool false)) = true →
    pyTruthy (dgetD pd "reasoning" PyVal.none) = true →
    sliceable (dgetD pd "reasoning" PyVal.none) = true

/-- The processed dict a task derives from its oracle's outcomes. -/
def processedOf (o : TaskOracle) (response : String) : PyDict :=
  match o.processResponse with
  | Except.error _ => defaultProcessed response
  | Except.ok pr => coerceProcessed response pr

/-- A task oracle on which every step succeeds: prompt, model call,
conversation log and log-file lookup all return, both judge results carry
score and explanation, and the processed response cannot make the
reasoning step raise. -/
def FullOk (o : TaskOracle) : Prop :=
  (∃ p, o.genPrompt = Except.ok p) ∧
  (∃ r, o.modelCall = Except.ok r ∧ ReasoningSafe (processedOf o r)) ∧
  o.logConv = Except.ok Unit.unit ∧
  o.postLog = Except.ok Unit.unit ∧
  JudgeOk o.judgeAcc ∧ JudgeOk o.judgeReas

/-- A task oracle whose model call exhausts its retries and raises. -/
def FailModel (o : TaskOracle) : Prop :=
  (∃ p, o.genPrompt = Except.ok p) ∧ (∃ e, o.modelCall = Except.error e)

/-- Cartesian task universe of run_evaluation, question-major as in the
single-threaded loop. -/
def tasksOf (questions : List PyDict) (strategies : List String) :
    List (PyDict × String) :=
  questions.flatMap (fun q => strategies.map (fun s => (q, s)))

/-- An EvaluationRecord as built by Evaluator.evaluate_answer, keyed by
question_id (used as a concrete backup input). -/
def c1_record (qid : String) : PyDict :=
  [("question_id", PyVal.str qid), ("question", PyVal.str "2+2=?"),
   ("reference_answer", PyVal.str "4"), ("model_answer", PyVal.str "4"),
   ("full_response", PyVal.str "4"), ("has_reasoning", PyVal.bool false),
   ("reasoning", PyVal.none), ("strategy", PyVal.str "baseline"),
   ("category", PyVal.str "math"), ("difficulty", PyVal.str "easy"),
   ("metrics", PyVal.dict
     [("accuracy", PyVal.dict [("score", PyVal.num 1), ("explanation", PyVal.str "ok")])]),
   ("timestamp", PyVal.num 1)]

/-- A one-record database used to exercise search failure handling. -/
def c2_db : VDB :=
  ⟨[[0]], [[("question", PyVal.str "x"), ("answer", PyVal.str "y")]]⟩

/-- A record already on disk under strategy A. -/
def c3_diskRecord : PyVal :=
  PyVal.dict [("question_id", PyVal.str "q1"), ("model_answer", PyVal.str "old")]

/-- An in-memory record for strategy A. -/
def c3_memRecord : PyVal :=
  PyVal.dict [("question_id", PyVal.str "q2"), ("model_answer", PyVal.str "new")]

/-- An in-memory results mapping used to exercise persistence failures. -/
def c4_results : List (String × PyVal) :=
  [("B", PyVal.list [PyVal.dict [("question_id", PyVal.str "q7")]])]

/-- Concrete embedder used for vector-index witnesses. -/
def c6_embed : String → Vec := fun s => [(s.length : ℚ)]

/-- Concrete items added to the vector index for witnesses. -/
def c6_items : List (String × PyDict) := [("a", []), ("bb", [])]

/-- A well-formed question dict. -/
def c5_question : PyDict :=
  [("id", PyVal.str "q1"), ("question", PyVal.str "2+2=?"),
   ("answer", PyVal.str "4"), ("category", PyVal.str "math"),
   ("difficulty", PyVal.str "easy")]

/-- A well-formed judge result. -/
def c5_judge : PyVal :=
  PyVal.dict [("score", PyVal.num 1), ("explanation", PyVal.str "ok")]

/-- Oracle for the C5 counterexample run: both tasks succeed through
scoring, but the zero-shot task's post-evaluation log-file lookup raises. -/
def c5_oracle (_ : PyDict) (s : String) : TaskOracle :=
  { genPrompt := Except.ok "prompt"
    modelCall := Except.ok "resp"
    processResponse := Except.error PyErr.typeError
    logConv := Except.ok Unit.unit
    judgeAcc := c5_judge
    judgeReas := c5_judge
    postLog := if s == "zero_shot" then Except.error PyErr.ioError else Except.ok Unit.unit }

/-- Oracle family for the C5 witness: the model call fails for the
(q1, zero_shot) task and every step succeeds elsewhere. -/
def c5_witness_oracle (_ : PyDict) (s : String) : TaskOracle :=
  { genPrompt := Except.ok "prompt"
    modelCall := if s == "zero_shot" then Except.error PyErr.runtimeError
                 else Except.ok "resp"
    processResponse := Except.error PyErr.typeError
    logConv := Except.ok Unit.unit
    judgeAcc := c5_judge
    judgeReas := c5_judge
    postLog := Except.ok Unit.unit }

/-- Readback of the by-reference database: the pure VDB whose metadata list
holds the current contents of the referenced dict objects. -/
def VDBRef.readback (db : VDBRef) (h : Heap) : VDB :=
  ⟨db.index, db.metadataAddrs.map h.read⟩

/-- Concrete embedder for the C10 witness. -/
def c10_embed : String → Except PyErr Vec := fun _ => Except.ok [0]

/-- Concrete one-record by-reference database for the C10 witness. -/
def c10_db : VDBRef := ⟨[[0]], [0]⟩

/-- Concrete heap for the C10 witness: one stored metadata dict. -/
def c10_heap : Heap := ⟨[[("question", PyVal.str "q")]]⟩

/-! General lemmas about the embedded dictionary operations, the
distance sort, and the built database, used by the claim theorems. -/

theorem find?_update_self (d : PyDict) (k : String) (v : PyVal)
    (h : d.any (fun p => p.1 = k) = true) :
    List.find? (fun p => decide (p.1 = k)) (d.map (fun p => if p.1 = k then (k, v) else p)) =
      some (k, v) := by
  induction d with
  | nil => simp at h
  | cons a as ih =>
    simp only [List.any_cons, Bool.or_eq_true, decide_eq_true_eq] at h
    by_cases hk : a.1 = k
    · simp [List.find?_cons, hk]
    · simp only [List.map_cons, if_neg hk, List.find?_cons, decide_eq_false hk]
      exact ih (by tauto)

theorem find?_update_ne (d : PyDict) (k k' : String) (v : PyVal) (hne : k' ≠ k) :
    List.find? (fun p => decide (p.1 = k')) (d.map (fun p => if p.1 = k then (k, v) else p)) =
      List.find? (fun p => decide (p.1 = k')) d := by
  induction d with
  | nil => simp
  | cons a as ih =>
    by_cases hk : a.1 = k
    · have h1 : ¬(k = k') := fun h => hne h.symm
      have h2 : ¬(a.1 = k') := by rw [hk]; exact h1
      simp only [List.map_cons, if_pos hk, List.find?_cons, decide_eq_false h1,
        decide_eq_false h2]
      exact ih
    · simp only [List.map_cons, if_neg hk, List.find?_cons]
      by_cases ha : a.1 = k'
      · simp only [decide_eq_true ha]
      · simp only [decide_eq_false ha]
        exact ih

theorem dget_dset_self (d : PyDict) (k : String) (v : PyVal) :
    dget (dset d k v) k = some v := by
  unfold dset dget
  split
  · rename_i h
    rw [find?_update_self d k v h]
    rfl
  · rename_i h
    rw [List.find?_append]
    have hnone : List.find? (fun p => decide (p.1 = k)) d = Option.none := by
      rw [List.find?_eq_none]
      intro x hx
      simp only [decide_eq_true_eq]
      intro hxk
      exact h (List.any_eq_true.mpr (Exists.intro x (And.intro hx (by simp [hxk]))))
    rw [hnone]
    simp [List.find?_cons]

theorem dget_dset_ne (d : PyDict) (k k' : String) (v : PyVal) (hne : k' ≠ k) :
    dget (dset d k v) k' = dget d k' := by
  unfold dset dget
  split
  · rw [find?_update_ne d k k' v hne]
  · rw [List.find?_append]
    have h1 : ¬(k = k') := fun h => hne h.symm
    have h2 : List.find? (fun p => decide (p.1 = k')) [(k, v)] = Option.none := by
      simp [List.find?_cons, decide_eq_false h1]
    rw [h2]
    cases List.find? (fun p => decide (p.1 = k')) d <;> rfl

theorem buildFrom_spec (embed : String → Vec) (items : List (String × PyDict)) :
    ∀ db : VDB,
      buildFrom embed db items =
        ⟨db.index ++ items.map (fun p => embed p.1),
         db.metadata ++ injectedAll db.metadata.length items⟩ := by
  induction items with
  | nil => intro db; simp [buildFrom, injectedAll]
  | cons a rest ih =>
    intro db
    rw [buildFrom, add_question]
    simp only [vdb_save]
    rw [ih]
    simp [injectedRecord, injectedAll, List.append_assoc, List.length_append]

theorem buildDB_spec (embed : String → Vec) (items : List (String × PyDict)) :
    buildDB embed items =
      ⟨items.map (fun p => embed p.1), injectedAll 0 items⟩ := by
  rw [buildDB, buildFrom_spec]
  rfl

theorem length_injectedAll (start : Nat) (items : List (String × PyDict)) :
    (injectedAll start items).length = items.length := by
  induction items generalizing start with
  | nil => rfl
  | cons a rest ih => simp [injectedAll, ih]

theorem getElem?_injectedAll (start : Nat) (items : List (String × PyDict)) (i : Nat) :
    (injectedAll start items)[i]? = items[i]?.map (fun it => injectedRecord (start + i) it) := by
  induction items generalizing start i with
  | nil => simp [injectedAll]
  | cons a rest ih =>
    rw [injectedAll]
    cases i with
    | zero => simp
    | succ j =>
      simp only [List.getElem?_cons_succ]
      rw [ih]
      have : start + 1 + j = start + (j + 1) := by omega
      rw [this]

theorem mem_insertByDist (x y : ℚ × Nat) (l : List (ℚ × Nat)) :
    y ∈ insertByDist x l ↔ y = x ∨ y ∈ l := by
  induction l with
  | nil => simp [insertByDist]
  | cons a as ih =>
    simp only [insertByDist]
    split
    · simp
    · simp only [List.mem_cons, ih]
      tauto

theorem mem_sortByDist (y : ℚ × Nat) (l : List (ℚ × Nat)) :
    y ∈ sortByDist l ↔ y ∈ l := by
  induction l with
  | nil => simp [sortByDist]
  | cons a as ih =>
    simp only [sortByDist, mem_insertByDist, List.mem_cons, ih]

theorem pairwise_insertByDist (x : ℚ × Nat) (l : List (ℚ × Nat))
    (h : l.Pairwise (fun a b => a.1 ≤ b.1)) :
    (insertByDist x l).Pairwise (fun a b => a.1 ≤ b.1) := by
  induction l with
  | nil => simp [insertByDist]
  | cons a as ih =>
    simp only [insertByDist]
    rcases List.pairwise_cons.mp h with ⟨ha, has⟩
    split
    · rename_i hlt
      refine List.pairwise_cons.mpr ⟨?_, h⟩
      intro b hb
      rcases List.mem_cons.mp hb with hb | hb
      · exact le_of_lt (hb ▸ hlt)
      · exact le_trans (le_of_lt hlt) (ha b hb)
    · rename_i hge
      refine List.pairwise_cons.mpr ⟨?_, ih has⟩
      intro b hb
      rcases (mem_insertByDist x b as).mp hb with hb | hb
      · exact hb ▸ (not_lt.mp hge)
      · exact ha b hb

theorem sorted_sortByDist (l : List (ℚ × Nat)) :
    (sortByDist l).Pairwise (fun a b => a.1 ≤ b.1) := by
  induction l with
  | nil => simp [sortByDist]
  | cons a as ih => exact pairwise_insertByDist a (sortByDist as) ih

/-- In a distance-sorted list that contains an element of strictly minimal
distance, that element comes first. -/
theorem head_of_sorted_unique_min (l : List (ℚ × Nat)) (m : ℚ × Nat)
    (hsorted : l.Pairwise (fun a b => a.1 ≤ b.1))
    (hmem : m ∈ l)
    (hmin : ∀ x ∈ l, x ≠ m → m.1 < x.1) :
    ∃ t, l = m :: t := by
  cases l with
  | nil => cases hmem
  | cons a t =>
    rcases List.mem_cons.mp hmem with h | h
    · exact ⟨t, by rw [h]⟩
    · by_cases ham : a = m
      · exact ⟨t, by rw [ham]⟩
      · exfalso
        have h1 : m.1 < a.1 := hmin a (List.mem_cons_self a t) ham
        have h2 : a.1 ≤ m.1 := (List.pairwise_cons.mp hsorted).1 m h
        exact absurd (lt_of_lt_of_le h1 h2) (lt_irrefl _)

/-! Claim theorems. -/

/-- C1: the code upserts evaluation rows keyed by result.get('id', ''), not
by the record's question_id field, so the two EvaluationRecords below —
distinct question_ids, same strategy and session — collapse into a single
row whose question_id column is '' and whose payload is the later record's,
where the claim requires one row per question_id. -/
theorem c1_backup_key_collapse :
    (backup_all_results Option.none 0 0 BackupDB.empty
        [("baseline", [c1_record "q1", c1_record "q2"])] [] "s1"
        PyVal.none PyVal.none).map
      (fun db => (db.evaluation_results.length,
        db.evaluation_results.map (fun r => r.question_id))) =
      Except.ok (1, [PyVal.str ""]) ∧
    dget (c1_record "q1") "question_id" = some (PyVal.str "q1") ∧
    dget (c1_record "q2") "question_id" = some (PyVal.str "q2") :=
  ⟨rfl, rfl, rfl⟩

/-- C2 counterexample: with an embedding collaborator that raises, the body
of VectorIndex.search fails, but search swallows the exception and returns
an empty result to its caller instead of surfacing a hard failure. -/
theorem c2_search_swallows_embedding_failure :
    search_impl (fun _ => Except.error PyErr.runtimeError) c2_db "q" 2 =
        Except.error PyErr.runtimeError ∧
      search (fun _ => Except.error PyErr.runtimeError) c2_db "q" 2 = [] :=
  ⟨rfl, rfl⟩

/-- C2 amended: an embedding failure propagates out of VectorIndex.add
unchanged (with the state untouched), while inside VectorIndex.search it is
caught and an empty result list is returned — swallowed at that layer. -/
theorem c2_amended (embed : String → Except PyErr Vec) (e : PyErr) (db : VDB)
    (q : String) (md : PyDict) (k : Nat) (w : Option PyErr)
    (hq : embed q = Except.error e) :
    add_question embed w db q md = (db, Except.error e) ∧
      search embed db q k = [] := by
  constructor
  · rw [add_question, hq]
  · rw [search, search_impl, hq]

theorem c2_amended_witness :
    (fun _ : String => (Except.error PyErr.runtimeError : Except PyErr Vec)) "q" =
        Except.error PyErr.runtimeError ∧
      (add_question (fun _ => Except.error PyErr.runtimeError) Option.none c2_db "q" [] =
          (c2_db, Except.error PyErr.runtimeError) ∧
        search (fun _ => Except.error PyErr.runtimeError) c2_db "q" 2 = []) :=
  ⟨rfl, c2_amended (fun _ => Except.error PyErr.runtimeError) PyErr.runtimeError
    c2_db "q" [] 2 Option.none rfl⟩

/-- C3: when a strategy already exists on disk, the merge loop calls .update
on the JSON array deserialized for it, which raises AttributeError; the
inner handler then logs a warning and the file is overwritten with the
in-memory state only — the disk record q1 is lost, where the claim (and the
code's own comment: existing strategy, add the new questions) requires the
union by key. -/
theorem c3_merge_loses_disk_records :
    save_results (some (Except.ok [("A", PyVal.list [c3_diskRecord])])) Option.none
        [("A", PyVal.list [c3_memRecord])] =
      { written := some [("A", PyVal.list [c3_memRecord])],
        results := [("A", PyVal.list [c3_memRecord])],
        warnedMergeFailure := true, loggedError := false,
        raised := Option.none } ∧
    mergeExisting [("A", PyVal.list [c3_diskRecord])] [("A", PyVal.list [c3_memRecord])] =
      Except.error PyErr.attributeError :=
  ⟨rfl, rfl⟩

/-- C4 counterexample: a disk write error in ResultAggregator.persist
(Evaluator.save_results) is logged by the outer handler but not re-raised —
the caller observes a normal return with nothing written. -/
theorem c4_save_results_swallows_write_error :
    save_results Option.none (some PyErr.ioError) c4_results =
      { written := Option.none, results := c4_results,
        warnedMergeFailure := false, loggedError := true,
        raised := Option.none } :=
  rfl

/-- C4 amended: a write error in VectorIndex persistence (_save, reached via
add) and a database error in a backup-store method are re-raised to the
caller, and a failure to read prior state in the merge-before-save path
degrades to writing the in-memory state only with a logged warning and no
exception; but a write error in ResultAggregator.persist is logged and
swallowed, not re-raised. -/
theorem c4_amended (e re : PyErr) (embed : String → Except PyErr Vec)
    (db : VDB) (q : String) (md : PyDict) (v : Vec) (now : ℚ)
    (table : List EvalRow) (result : PyDict) (strategy sid : String)
    (ds mo : PyVal) (fileState : Option (Except PyErr (List (String × PyVal))))
    (results : List (String × PyVal))
    (hembed : embed q = Except.ok v) :
    (add_question embed (some e) db q md).2 = Except.error e ∧
    backup_evaluation_result (some e) now table result strategy sid ds mo =
      Except.error e ∧
    save_results (some (Except.error re)) Option.none results =
      { written := some results, results := results, warnedMergeFailure := true,
        loggedError := false, raised := Option.none } ∧
    (save_results fileState (some e) results).raised = Option.none ∧
    (save_results fileState (some e) results).loggedError = true ∧
    (save_results fileState (some e) results).written = Option.none := by
  refine ⟨?_, rfl, rfl, rfl, rfl, rfl⟩
  rw [add_question, hembed]
  rfl

theorem c4_amended_witness :
    (fun _ : String => (Except.ok [(0 : ℚ)] : Except PyErr Vec)) "q" =
        Except.ok [(0 : ℚ)] ∧
      ((add_question (fun _ => Except.ok [(0 : ℚ)]) (some PyErr.ioError)
          VDB.empty "q" []).2 = Except.error PyErr.ioError ∧
        backup_evaluation_result (some PyErr.ioError) 0 [] (c1_record "q1")
            "baseline" "s1" PyVal.none PyVal.none = Except.error PyErr.ioError ∧
        save_results (some (Except.error PyErr.ioError)) Option.none c4_results =
          { written := some c4_results, results := c4_results,
            warnedMergeFailure := true, loggedError := false,
            raised := Option.none } ∧
        (save_results Option.none (some PyErr.ioError) c4_results).raised =
          Option.none ∧
        (save_results Option.none (some PyErr.ioError) c4_results).loggedError =
          true ∧
        (save_results Option.none (some PyErr.ioError) c4_results).written =
          Option.none) :=
  ⟨rfl, c4_amended PyErr.ioError PyErr.ioError (fun _ => Except.ok [(0 : ℚ)])
    VDB.empty "q" [] [(0 : ℚ)] 0 [] (c1_record "q1") "baseline" "s1"
    PyVal.none PyVal.none Option.none c4_results rfl⟩

/-- C9: judge-output scoring never raises — evaluate_response is a total
function into score records: a failed judge call degrades to the
zero-score diagnostic record; on success the response is first stripped of
code-fence markers (clean_json_string) and structured parsing is attempted;
on parse failure the score is extracted by regex from the raw response (with
the explanation regex or its default); and if that also fails the zero-score
record with a diagnostic explanation is returned. -/
theorem c9_judge_scoring_never_raises (jsonLoads : String → Option PyVal)
    (gen : Except PyErr String) (metric : String) (response : String)
    (v : PyVal) (e : PyErr)
    (hmetric : metric = "accuracy" ∨ metric = "reasoning_quality") :
    (gen = Except.error e →
      evaluate_response jsonLoads gen metric =
        PyVal.dict [("score", PyVal.num 0), ("explanation", PyVal.str "评估过程出错")]) ∧
    (gen = Except.ok response → jsonLoads (clean_json_string response) = some v →
      evaluate_response jsonLoads gen metric = v) ∧
    (gen = Except.ok response → jsonLoads (clean_json_string response) = Option.none →
      ∀ run score, findScore response.toList = some run →
        parseFloatRun run = some score →
        evaluate_response jsonLoads gen metric =
          PyVal.dict [("score", PyVal.num score),
            ("explanation", PyVal.str
              (match findExplanation response.toList with
               | some ex => String.mk ex
               | Option.none => "无法提取解释"))]) ∧
    (gen = Except.ok response → jsonLoads (clean_json_string response) = Option.none →
      (∀ run, findScore response.toList = some run → parseFloatRun run = Option.none) →
      evaluate_response jsonLoads gen metric = scoreZeroParse) := by
  have hcond : ¬(metric ≠ "accuracy" ∧ metric ≠ "reasoning_quality") := by
    rcases hmetric with h | h <;> simp [h]
  refine ⟨?_, ?_, ?_, ?_⟩
  · intro hg
    subst hg
    rw [evaluate_response, evaluate_response_body, if_neg hcond]
  · intro hg hj
    subst hg
    rw [evaluate_response, evaluate_response_body, if_neg hcond]
    rw [hj]
  · intro hg hj run score hrun hscore
    subst hg
    rw [evaluate_response, evaluate_response_body, if_neg hcond, hj]
    have hrun' : findScore response.toList = some run := hrun
    rw [hrun']
    simp only [hscore]
  · intro hg hj hfail
    subst hg
    rw [evaluate_response, evaluate_response_body, if_neg hcond]
    rw [hj]
    cases hr : findScore response.toList with
    | none => rfl
    | some run => simp [hr, hfail run hr]

theorem c9_witness :
    evaluate_response (fun _ => Option.none)
        (Except.ok "\"score\": 1, \"explanation\": \"good\"") "accuracy" =
      PyVal.dict [("score", PyVal.num 1), ("explanation", PyVal.str "good")] := by
  have hexp : findExplanation ("\"score\": 1, \"explanation\": \"good\"").toList =
      some ['g', 'o', 'o', 'd'] := by decide
  have hsc : parseFloatRun ['1'] = some 1 := by
    rw [parseFloatRun, if_pos (by decide)]
    have h1 : List.takeWhile (fun c => !(c == '.')) ['1'] = ['1'] := by decide
    have h2 : List.dropWhile (fun c => !(c == '.')) ['1'] = [] := by decide
    rw [h1, h2]
    have h3 : digitsToNat ['1'] = 1 := by decide
    have h4 : digitsToNat [] = 0 := by decide
    norm_num [h3, h4]
  have h := (c9_judge_scoring_never_raises (fun _ => Option.none)
    (Except.ok "\"score\": 1, \"explanation\": \"good\"") "accuracy"
    "\"score\": 1, \"explanation\": \"good\"" PyVal.none PyErr.runtimeError
    (Or.inl rfl)).2.2.1 rfl rfl ['1'] 1 (by decide) hsc
  rw [h, hexp]

theorem dget_none_of_any_beq_false (d : PyDict) (k : String)
    (h : d.any (fun p => p.1 == k) = false) : dget d k = Option.none := by
  rw [dget]
  have : List.find? (fun p => decide (p.1 = k)) d = Option.none := by
    rw [List.find?_eq_none]
    intro x hx
    have := List.any_eq_false.mp h x hx
    simpa using this
  rw [this]
  rfl

theorem recordScore_ok_dict (toFloat : PyVal → Option ℚ) (metricKey : String)
    (d : PyDict) (h : metricsContainerOk (PyVal.dict d) = true) :
    recordScore toFloat metricKey (PyVal.dict d) =
      Except.ok ((dget d "metrics").bind (fun mv => tryScore toFloat mv metricKey)) := by
  cases hm : dget d "metrics" with
  | none => simp [recordScore, hm]
  | some mv =>
    rw [metricsContainerOk, hm] at h
    cases mv with
    | dict m =>
      cases hb : m.any (fun p => p.1 == metricKey) with
      | true => simp [recordScore, hm, pyIn, hb, tryScore]
      | false =>
        have hnone : dget m metricKey = Option.none :=
          dget_none_of_any_beq_false m metricKey hb
        simp [recordScore, hm, pyIn, hb, tryScore, hnone, pySubscriptOpt]
    | list xs =>
      simp only [recordScore, hm, pyIn]
      cases xs.any (fun v =>
          match v with | PyVal.str s => s == metricKey | _ => false) <;>
        simp [tryScore, pySubscriptOpt]
    | str s =>
      simp only [recordScore, hm, pyIn]
      cases listInfixOf metricKey.toList s.toList <;>
        simp [tryScore, pySubscriptOpt]
    | none => simp at h
    | bool b => simp at h
    | num q => simp at h

theorem collectScores_ok (toFloat : PyVal → Option ℚ) (metricKey : String)
    (evals : List PyVal) (h : ∀ e ∈ evals, metricsContainerOk e = true) :
    collectScores toFloat metricKey evals =
      Except.ok (wellFormedScores toFloat metricKey evals) := by
  induction evals with
  | nil => rfl
  | cons e rest ih =>
    have hR := ih (fun x hx => h x (by simp [hx]))
    cases e with
    | dict d =>
      have hE := recordScore_ok_dict toFloat metricKey d (h _ (by simp))
      rw [collectScores, hE, hR]
      cases hx : (dget d "metrics").bind (fun mv => tryScore toFloat mv metricKey) with
      | some q => simp [hx, wellFormedScores, List.filterMap_cons]
      | none => simp [hx, wellFormedScores, List.filterMap_cons]
    | none => rw [collectScores, hR]; simp [recordScore, wellFormedScores, List.filterMap_cons]
    | bool b => rw [collectScores, hR]; simp [recordScore, wellFormedScores, List.filterMap_cons]
    | num q => rw [collectScores, hR]; simp [recordScore, wellFormedScores, List.filterMap_cons]
    | str s => rw [collectScores, hR]; simp [recordScore, wellFormedScores, List.filterMap_cons]
    | list xs => rw [collectScores, hR]; simp [recordScore, wellFormedScores, List.filterMap_cons]

theorem breakdownFor_ok (toFloat : PyVal → Option ℚ) (evals : List PyVal)
    (key : String) (v : PyVal)
    (h : ∀ e ∈ evals, metricsContainerOk e = true) :
    ∃ r, breakdownFor toFloat evals key v = Except.ok r := by
  rw [breakdownFor]
  cases hf : (evals.filter (fieldEquals key v)).isEmpty with
  | true => exact ⟨Option.none, by simp⟩
  | false =>
    rw [collectScores_ok toFloat "accuracy" _
        (fun e he => h e (List.mem_of_mem_filter he))]
    by_cases hw : wellFormedScores toFloat "accuracy" (evals.filter (fieldEquals key v)) = []
    · exact ⟨Option.none, by simp [hw]⟩
    · exact ⟨some ((evals.filter (fieldEquals key v)).length,
        (wellFormedScores toFloat "accuracy" (evals.filter (fieldEquals key v))).sum /
          ((wellFormedScores toFloat "accuracy" (evals.filter (fieldEquals key v))).length : ℚ)),
        by simp [hw]⟩

theorem difficultyBreakdown_ok (toFloat : PyVal → Option ℚ) (evals : List PyVal)
    (names : List String)
    (h : ∀ e ∈ evals, metricsContainerOk e = true) :
    ∃ r, difficultyBreakdown toFloat evals names = Except.ok r := by
  induction names with
  | nil => exact ⟨[], rfl⟩
  | cons n rest ih =>
    obtain ⟨r1, hr1⟩ := breakdownFor_ok toFloat evals "difficulty" (PyVal.str n) h
    obtain ⟨r2, hr2⟩ := ih
    rw [difficultyBreakdown, hr1, hr2]
    exact ⟨_, rfl⟩

theorem categoriesOf_ok (evals : List PyVal)
    (h : ∀ e ∈ evals, categoryHashOk e = true) :
    ∃ cats, categoriesOf evals = Except.ok cats := by
  rw [categoriesOf]
  have hall : (evals.filterMap (fun e =>
      match e with
      | PyVal.dict d =>
        if pyTruthy (dgetD d "category" PyVal.none)
        then some (dgetD d "category" (PyVal.str "")) else Option.none
      | _ => Option.none)).all hashable = true := by
    rw [List.all_eq_true]
    intro v hv
    obtain ⟨e, he, hfe⟩ := List.mem_filterMap.mp hv
    have hc := h e he
    cases e with
    | dict d =>
      rw [categoryHashOk] at hc
      by_cases ht : pyTruthy (dgetD d "category" PyVal.none) = true
      · simp only [ht, if_true] at hfe hc
        injection hfe with hfe2
        rw [← hfe2]
        exact hc
      · simp only [ht, if_false] at hfe
        simp [ht] at hfe
    | none => cases hfe
    | bool b => cases hfe
    | num q => cases hfe
    | str s => cases hfe
    | list xs => cases hfe
  rw [if_pos hall]
  exact ⟨_, rfl⟩

theorem categoryBreakdown_ok (toFloat : PyVal → Option ℚ) (evals : List PyVal)
    (cats : List PyVal)
    (h : ∀ e ∈ evals, metricsContainerOk e = true) :
    ∃ r, categoryBreakdown toFloat evals cats = Except.ok r := by
  induction cats with
  | nil => exact ⟨[], rfl⟩
  | cons c rest ih =>
    obtain ⟨r1, hr1⟩ := breakdownFor_ok toFloat evals "category" c h
    obtain ⟨r2, hr2⟩ := ih
    rw [categoryBreakdown, hr1, hr2]
    exact ⟨_, rfl⟩

theorem strategyMetricsOf_ok (toFloat : PyVal → Option ℚ) (evals : List PyVal)
    (h1 : ∀ e ∈ evals, metricsContainerOk e = true)
    (h2 : ∀ e ∈ evals, categoryHashOk e = true) :
    ∃ sm, strategyMetricsOf toFloat EVALUATION_METRICS evals = Except.ok sm ∧
      sm.total_questions = evals.length ∧
      sm.accuracy = avgOf (wellFormedScores toFloat "accuracy" evals) := by
  obtain ⟨diffs, hdiffs⟩ :=
    difficultyBreakdown_ok toFloat evals ["easy", "medium", "hard"] h1
  obtain ⟨cats, hcats⟩ := categoriesOf_ok evals h2
  obtain ⟨cb, hcb⟩ := categoryBreakdown_ok toFloat evals cats h1
  have hacc : ("accuracy" ∈ EVALUATION_METRICS) := by simp [EVALUATION_METRICS]
  have hreas : ("reasoning_quality" ∈ EVALUATION_METRICS) := by
    simp [EVALUATION_METRICS]
  rw [strategyMetricsOf]
  simp only [if_pos hacc, if_pos hreas,
    collectScores_ok toFloat "accuracy" evals h1,
    collectScores_ok toFloat "reasoning_quality" evals h1, hdiffs, hcats, hcb]
  exact ⟨_, rfl, rfl, rfl⟩

theorem calculate_cons_skip (toFloat : PyVal → Option ℚ) (cfg : List String)
    (s0 : String) (v0 : PyVal) (rest : List (String × PyVal))
    (h : ∀ evals, v0 ≠ PyVal.list evals) :
    calculate_overall_metrics toFloat cfg ((s0, v0) :: rest) =
      calculate_overall_metrics toFloat cfg rest := by
  cases v0 with
  | list evals => exact absurd rfl (h evals)
  | none => rfl
  | bool b => rfl
  | num q => rfl
  | str s => rfl
  | dict d => rfl

theorem calculate_ok_of_safe (toFloat : PyVal → Option ℚ)
    (results : List (String × PyVal)) (hsafe : AggregationSafe results) :
    ∃ out, calculate_overall_metrics toFloat EVALUATION_METRICS results =
      Except.ok out := by
  induction results with
  | nil => exact ⟨[], rfl⟩
  | cons p rest ih =>
    obtain ⟨s0, v0⟩ := p
    have hrest : AggregationSafe rest := fun q hq => hsafe q (by simp [hq])
    obtain ⟨outR, houtR⟩ := ih hrest
    cases v0 with
    | list evals =>
      have hse := hsafe (s0, PyVal.list evals) (by simp) evals rfl
      obtain ⟨sm, hsm, _, _⟩ := strategyMetricsOf_ok toFloat evals
        (fun e he => (hse e he).1) (fun e he => (hse e he).2)
      rw [calculate_overall_metrics, hsm, houtR]
      exact ⟨_, rfl⟩
    | none =>
      exact ⟨outR, by
        rw [calculate_cons_skip _ _ _ _ _ (by intro _ hh; cases hh)]; exact houtR⟩
    | bool b =>
      exact ⟨outR, by
        rw [calculate_cons_skip _ _ _ _ _ (by intro _ hh; cases hh)]; exact houtR⟩
    | num q =>
      exact ⟨outR, by
        rw [calculate_cons_skip _ _ _ _ _ (by intro _ hh; cases hh)]; exact houtR⟩
    | str s =>
      exact ⟨outR, by
        rw [calculate_cons_skip _ _ _ _ _ (by intro _ hh; cases hh)]; exact houtR⟩
    | dict d =>
      exact ⟨outR, by
        rw [calculate_cons_skip _ _ _ _ _ (by intro _ hh; cases hh)]; exact houtR⟩

/-- C8 counterexample: a record whose metrics field holds a number makes the
membership test 'accuracy' in e['metrics'] raise TypeError outside the
defensive try, so the whole aggregation fails rather than excluding the
malformed entry. -/
theorem c8_nonContainer_metrics_raises :
    calculate_overall_metrics
        (fun v => match v with | PyVal.num q => some q | _ => Option.none)
        EVALUATION_METRICS
        [("s", PyVal.list [PyVal.dict [("metrics", PyVal.num 5)]])] =
      Except.error PyErr.typeError := rfl

/-- C8 amended: when every record's metrics value (if any) supports
membership tests and every truthy category value is hashable, the
aggregation returns, and each strategy's accuracy average is the arithmetic
mean over exactly those records whose metrics.accuracy.score is present
and parses as a number (absent when no score parses); records whose
metrics value is a non-container still abort the whole aggregation with a
TypeError, as the counterexample shows. -/
theorem c8_amended (toFloat : PyVal → Option ℚ)
    (results : List (String × PyVal)) (strategy : String) (evals : List PyVal)
    (hsafe : AggregationSafe results)
    (hnodup : (results.map Prod.fst).Nodup)
    (hmem : (strategy, PyVal.list evals) ∈ results) :
    ∃ out sm,
      calculate_overall_metrics toFloat EVALUATION_METRICS results =
        Except.ok out ∧
      out.lookup strategy = some sm ∧
      sm.total_questions = evals.length ∧
      sm.accuracy = avgOf (wellFormedScores toFloat "accuracy" evals) ∧
      (wellFormedScores toFloat "accuracy" evals ≠ [] →
        sm.accuracy = some
          { average_score := (wellFormedScores toFloat "accuracy" evals).sum /
              (wellFormedScores toFloat "accuracy" evals).length,
            count := (wellFormedScores toFloat "accuracy" evals).length }) := by
  induction results with
  | nil => cases hmem
  | cons p rest ih =>
    obtain ⟨s0, v0⟩ := p
    have hrest : AggregationSafe rest := fun q hq => hsafe q (by simp [hq])
    have hnodupR : (rest.map Prod.fst).Nodup := (List.nodup_cons.mp hnodup).2
    have hs0notin : s0 ∉ rest.map Prod.fst := (List.nodup_cons.mp hnodup).1
    rcases List.mem_cons.mp hmem with hhead | htail
    · have hs : s0 = strategy := congrArg Prod.fst hhead.symm
      have hv : v0 = PyVal.list evals := congrArg Prod.snd hhead.symm
      subst hs
      subst hv
      have hse := hsafe (s0, PyVal.list evals) (by simp) evals rfl
      obtain ⟨sm, hsm, htq, hacc⟩ := strategyMetricsOf_ok toFloat evals
        (fun e he => (hse e he).1) (fun e he => (hse e he).2)
      obtain ⟨outR, houtR⟩ := calculate_ok_of_safe toFloat rest hrest
      refine ⟨(s0, sm) :: outR, sm, ?_, ?_, htq, hacc, ?_⟩
      · rw [calculate_overall_metrics, hsm, houtR]
      · simp [List.lookup]
      · intro hne
        rw [hacc, avgOf, if_neg (by simpa using hne)]
    · have hstrat_in : strategy ∈ rest.map Prod.fst :=
        List.mem_map.mpr ⟨(strategy, PyVal.list evals), htail, rfl⟩
      have hne : s0 ≠ strategy := fun h => hs0notin (h ▸ hstrat_in)
      obtain ⟨out, sm, hout, hlookup, htq, hacc, havg⟩ := ih hrest hnodupR htail
      cases v0 with
      | list evals0 =>
        have hse := hsafe (s0, PyVal.list evals0) (by simp) evals0 rfl
        obtain ⟨sm0, hsm0, _, _⟩ := strategyMetricsOf_ok toFloat evals0
          (fun e he => (hse e he).1) (fun e he => (hse e he).2)
        refine ⟨(s0, sm0) :: out, sm, ?_, ?_, htq, hacc, havg⟩
        · rw [calculate_overall_metrics, hsm0, hout]
        · have hbeq : (strategy == s0) = false :=
            beq_eq_false_iff_ne.mpr (fun h => hne h.symm)
          simp [List.lookup, hbeq]
          exact hlookup
      | none =>
        exact ⟨out, sm, by
          rw [calculate_cons_skip _ _ _ _ _ (by intro _ hh; cases hh)]; exact hout,
          hlookup, htq, hacc, havg⟩
      | bool b =>
        exact ⟨out, sm, by
          rw [calculate_cons_skip _ _ _ _ _ (by intro _ hh; cases hh)]; exact hout,
          hlookup, htq, hacc, havg⟩
      | num q =>
        exact ⟨out, sm, by
          rw [calculate_cons_skip _ _ _ _ _ (by intro _ hh; cases hh)]; exact hout,
          hlookup, htq, hacc, havg⟩
      | str s =>
        exact ⟨out, sm, by
          rw [calculate_cons_skip _ _ _ _ _ (by intro _ hh; cases hh)]; exact hout,
          hlookup, htq, hacc, havg⟩
      | dict d =>
        exact ⟨out, sm, by
          rw [calculate_cons_skip _ _ _ _ _ (by intro _ hh; cases hh)]; exact hout,
          hlookup, htq, hacc, havg⟩

theorem c8_amended_witness :
    ∃ out sm,
      calculate_overall_metrics
          (fun v => match v with | PyVal.num q => some q | _ => Option.none)
          EVALUATION_METRICS
          [("s", PyVal.list
            [PyVal.dict [("metrics", PyVal.dict
              [("accuracy", PyVal.dict [("score", PyVal.num 1), ("explanation", PyVal.str "a")])])],
             PyVal.dict [("metrics", PyVal.dict
              [("accuracy", PyVal.dict [("score", PyVal.num 0), ("explanation", PyVal.str "b")])])],
             PyVal.dict [("metrics", PyVal.dict [("accuracy", PyVal.dict [("explanation", PyVal.str "malformed")])])]])] =
        Except.ok out ∧
      out.lookup "s" = some sm ∧
      sm.total_questions = 3 ∧
      sm.accuracy = avgOf [1, 0] ∧
      ([(1 : ℚ), 0] ≠ [] →
        sm.accuracy = some { average_score := ([(1 : ℚ), 0]).sum / ([(1 : ℚ), 0]).length,
                             count := ([(1 : ℚ), 0]).length }) := by
  have h := c8_amended
    (fun v => match v with | PyVal.num q => some q | _ => Option.none)
    [("s", PyVal.list
      [PyVal.dict [("metrics", PyVal.dict
        [("accuracy", PyVal.dict [("score", PyVal.num 1), ("explanation", PyVal.str "a")])])],
       PyVal.dict [("metrics", PyVal.dict
        [("accuracy", PyVal.dict [("score", PyVal.num 0), ("explanation", PyVal.str "b")])])],
       PyVal.dict [("metrics", PyVal.dict [("accuracy", PyVal.dict [("explanation", PyVal.str "malformed")])])]])]
    "s"
    [PyVal.dict [("metrics", PyVal.dict
      [("accuracy", PyVal.dict [("score", PyVal.num 1), ("explanation", PyVal.str "a")])])],
     PyVal.dict [("metrics", PyVal.dict
      [("accuracy", PyVal.dict [("score", PyVal.num 0), ("explanation", PyVal.str "b")])])],
     PyVal.dict [("metrics", PyVal.dict [("accuracy", PyVal.dict [("explanation", PyVal.str "malformed")])])]]
    (by
      intro p hp evals hevals
      simp at hp
      rw [hp] at hevals
      cases hevals
      intro e he
      simp at he
      rcases he with h | h | h <;> rw [h] <;> exact ⟨rfl, rfl⟩)
    (by simp)
    (by simp)
  obtain ⟨out, sm, hout, hlookup, htq, hacc, havg⟩ := h
  have hwfs : wellFormedScores
      (fun v => match v with | PyVal.num q => some q | _ => Option.none) "accuracy"
      [PyVal.dict [("metrics", PyVal.dict
        [("accuracy", PyVal.dict [("score", PyVal.num 1), ("explanation", PyVal.str "a")])])],
       PyVal.dict [("metrics", PyVal.dict
        [("accuracy", PyVal.dict [("score", PyVal.num 0), ("explanation", PyVal.str "b")])])],
       PyVal.dict [("metrics", PyVal.dict [("accuracy", PyVal.dict [("explanation", PyVal.str "malformed")])])]] =
      [1, 0] := rfl
  refine ⟨out, sm, hout, hlookup, htq, ?_, ?_⟩
  · rw [hacc, hwfs]
  · intro hne
    rw [havg (by rw [hwfs]; simp), hwfs]

theorem mem_distPairsFrom (q : Vec) (vs : List Vec) (p : ℚ × Nat) :
    ∀ start, p ∈ distPairsFrom q start vs ↔
      ∃ j, j < vs.length ∧ p = (sqDist q (vs.getD j []), start + j) := by
  induction vs with
  | nil => intro start; simp [distPairsFrom]
  | cons v rest ih =>
    intro start
    simp only [distPairsFrom, List.mem_cons, ih (start + 1)]
    constructor
    · rintro (h | ⟨j, hj, hp⟩)
      · exact ⟨0, by simp, by simpa using h⟩
      · refine ⟨j + 1, by simpa using hj, ?_⟩
        rw [hp]
        have : start + 1 + j = start + (j + 1) := by omega
        rw [this]
        rfl
    · rintro ⟨j, hj, hp⟩
      cases j with
      | zero => left; simpa using hp
      | succ j' =>
        right
        refine ⟨j', by simpa using hj, ?_⟩
        rw [hp]
        have : start + (j' + 1) = start + 1 + j' := by omega
        rw [this]
        rfl

theorem mem_faissSearch (vectors : List Vec) (q : Vec) (k : Nat) (p : ℚ × Nat)
    (h : p ∈ faissSearch vectors q k) :
    p.2 < vectors.length ∧ p.1 = sqDist q (vectors.getD p.2 []) := by
  have h1 : p ∈ sortByDist (distPairsFrom q 0 vectors) := List.mem_of_mem_take h
  have h2 : p ∈ distPairsFrom q 0 vectors := (mem_sortByDist p _).mp h1
  obtain ⟨j, hj, hp⟩ := (mem_distPairsFrom q vectors p 0).mp h2
  rw [hp]
  simpa using hj

theorem search_result_mem (embed : String → Vec) (db : VDB) (q : String)
    (k : Nat) (r : PyDict)
    (hr : r ∈ search (fun t => Except.ok (embed t)) db q k) :
    ∃ j, j < db.metadata.length ∧
      r = dset (db.metadata.getD j []) "distance"
            (PyVal.num (sqDist (embed q) (db.index.getD j []))) := by
  simp only [search, search_impl] at hr
  by_cases hk : min k db.metadata.length = 0
  · rw [if_pos hk] at hr
    cases hr
  · rw [if_neg hk] at hr
    obtain ⟨p, hp, hpr⟩ := List.mem_filterMap.mp hr
    by_cases hidx : p.2 < db.metadata.length
    · rw [if_pos hidx] at hpr
      obtain ⟨_, hdist⟩ := mem_faissSearch db.index (embed q) _ p hp
      injection hpr with hpr2
      exact ⟨p.2, hidx, by rw [← hpr2, hdist]⟩
    · rw [if_neg hidx] at hpr
      cases hpr

/-- C6: building a database by successive add calls from empty, the i-th add
(0-indexed) returns ordinal i; the record and its vector sit at position i
of the metadata list and the ANN structure at all times afterwards
(insertion is append-only, so ordinals are never reused, and the record's
injected 'id' field equals i); and every search hit is the stored metadata
record of some position j — the record stored at its insertion, with only
the 'distance' field added. -/
theorem c6_ordinal_stability (embed : String → Vec)
    (items : List (String × PyDict)) (i : Nat) (hi : i < items.length) :
    (add_question (fun t => Except.ok (embed t)) Option.none
        (buildDB embed (items.take i)) (items.getD i ("", [])).1
        (items.getD i ("", [])).2).2 = Except.ok i ∧
    (buildDB embed items).metadata[i]? =
      some (injectedRecord i (items.getD i ("", []))) ∧
    (buildDB embed items).index[i]? = some (embed (items.getD i ("", [])).1) ∧
    dget (injectedRecord i (items.getD i ("", []))) "id" = some (PyVal.num i) ∧
    (∀ q k r, r ∈ search (fun t => Except.ok (embed t)) (buildDB embed items) q k →
      ∃ j, j < items.length ∧
        r = dset (injectedRecord j (items.getD j ("", []))) "distance"
              (PyVal.num (sqDist (embed q) (embed (items.getD j ("", [])).1)))) := by
  have hgetItem : ∀ j, j < items.length →
      items[j]? = some (items.getD j ("", [])) := by
    intro j hj
    rw [List.getElem?_eq_getElem hj, List.getD_eq_getElem _ _ hj]
  have hmeta : ∀ j, j < items.length →
      (buildDB embed items).metadata[j]? =
        some (injectedRecord j (items.getD j ("", []))) := by
    intro j hj
    rw [buildDB_spec]
    show (injectedAll 0 items)[j]? = _
    rw [getElem?_injectedAll, hgetItem j hj]
    simp
  have hvec : ∀ j, j < items.length →
      (buildDB embed items).index[j]? = some (embed (items.getD j ("", [])).1) := by
    intro j hj
    rw [buildDB_spec]
    show (items.map (fun p => embed p.1))[j]? = _
    rw [List.getElem?_map, hgetItem j hj]
    rfl
  refine ⟨?_, hmeta i hi, hvec i hi, ?_, ?_⟩
  · rw [add_question]
    simp only [vdb_save]
    have hlen : (buildDB embed (items.take i)).metadata.length = i := by
      rw [buildDB_spec]
      show (injectedAll 0 (items.take i)).length = i
      rw [length_injectedAll, List.length_take]
      omega
    rw [hlen]
  · rw [injectedRecord, dget_dset_ne _ _ _ _ (by decide), dget_dset_self]
  · intro q k r hr
    obtain ⟨j, hj, hrj⟩ := search_result_mem embed (buildDB embed items) q k r hr
    have hjlen : j < items.length := by
      have : (buildDB embed items).metadata.length = items.length := by
        rw [buildDB_spec]
        show (injectedAll 0 items).length = _
        rw [length_injectedAll]
      omega
    refine ⟨j, hjlen, ?_⟩
    have hm := hmeta j hjlen
    have hv := hvec j hjlen
    have hmd : (buildDB embed items).metadata.getD j [] =
        injectedRecord j (items.getD j ("", [])) := by
      rw [List.getD_eq_getElem?_getD, hm]
      rfl
    have hvd : (buildDB embed items).index.getD j [] =
        embed (items.getD j ("", [])).1 := by
      rw [List.getD_eq_getElem?_getD, hv]
      rfl
    rw [hrj, hmd, hvd]

theorem c6_witness :
    (1 < 2) ∧
    ((add_question (fun t => Except.ok (c6_embed t)) Option.none
        (buildDB c6_embed (c6_items.take 1))
        ((c6_items.getD 1 ("", [])).1) ((c6_items.getD 1 ("", [])).2)).2 =
          Except.ok 1 ∧
      (buildDB c6_embed c6_items).metadata[1]? =
        some (injectedRecord 1 (c6_items.getD 1 ("", []))) ∧
      (buildDB c6_embed c6_items).index[1]? =
        some (c6_embed ((c6_items.getD 1 ("", [])).1)) ∧
      dget (injectedRecord 1 (c6_items.getD 1 ("", []))) "id" =
        some (PyVal.num 1) ∧
      (∀ q k r, r ∈ search (fun t => Except.ok (c6_embed t))
            (buildDB c6_embed c6_items) q k →
        ∃ j, j < c6_items.length ∧
          r = dset (injectedRecord j (c6_items.getD j ("", []))) "distance"
                (PyVal.num (sqDist (c6_embed q)
                  (c6_embed ((c6_items.getD j ("", [])).1)))))) :=
  ⟨by decide, c6_ordinal_stability c6_embed c6_items 1 (by decide)⟩

theorem sqDist_self (v : Vec) : sqDist v v = 0 := by
  induction v with
  | nil => rfl
  | cons x xs ih =>
    rw [sqDist] at ih ⊢
    simp only [List.zip_cons_cons, List.map_cons, List.sum_cons, ih]
    ring

theorem perm_insertByDist (x : ℚ × Nat) (l : List (ℚ × Nat)) :
    (insertByDist x l).Perm (x :: l) := by
  induction l with
  | nil => simp [insertByDist]
  | cons y ys ih =>
    rw [insertByDist]
    split
    · exact List.Perm.refl _
    · exact ((ih.cons y).trans (List.Perm.swap x y ys))

theorem perm_sortByDist (l : List (ℚ × Nat)) : (sortByDist l).Perm l := by
  induction l with
  | nil => exact List.Perm.refl _
  | cons a as ih => exact (perm_insertByDist a (sortByDist as)).trans (ih.cons a)

theorem nodup_distPairsFrom (q : Vec) (vs : List Vec) :
    ∀ start, (distPairsFrom q start vs).Nodup := by
  induction vs with
  | nil => intro start; simp [distPairsFrom]
  | cons v rest ih =>
    intro start
    rw [distPairsFrom]
    refine List.nodup_cons.mpr ⟨?_, ih (start + 1)⟩
    intro hmem
    obtain ⟨j, _, hp⟩ := (mem_distPairsFrom q rest _ (start + 1)).mp hmem
    have : start = start + 1 + j := congrArg Prod.snd hp
    omega

theorem buildDB_metadata_length (embed : String → Vec)
    (items : List (String × PyDict)) :
    (buildDB embed items).metadata.length = items.length := by
  rw [buildDB_spec]
  show (injectedAll 0 items).length = _
  rw [length_injectedAll]

theorem buildDB_index_length (embed : String → Vec)
    (items : List (String × PyDict)) :
    (buildDB embed items).index.length = items.length := by
  rw [buildDB_spec]
  show (items.map (fun p => embed p.1)).length = _
  rw [List.length_map]

theorem buildDB_metadata_getD (embed : String → Vec)
    (items : List (String × PyDict)) (j : Nat) (hj : j < items.length) :
    (buildDB embed items).metadata.getD j [] =
      injectedRecord j (items.getD j ("", [])) := by
  rw [List.getD_eq_getElem?_getD, buildDB_spec]
  show ((injectedAll 0 items)[j]?).getD [] = _
  rw [getElem?_injectedAll, List.getElem?_eq_getElem hj, List.getD_eq_getElem _ _ hj]
  simp

theorem buildDB_index_getD (embed : String → Vec)
    (items : List (String × PyDict)) (j : Nat) (hj : j < items.length) :
    (buildDB embed items).index.getD j [] = embed (items.getD j ("", [])).1 := by
  rw [List.getD_eq_getElem?_getD, buildDB_spec]
  show ((items.map (fun p => embed p.1))[j]?).getD [] = _
  rw [List.getElem?_map, List.getElem?_eq_getElem hj, List.getD_eq_getElem _ _ hj]
  rfl

theorem dget_injectedRecord_question (i : Nat) (item : String × PyDict) :
    dget (injectedRecord i item) "question" = some (PyVal.str item.1) := by
  rw [injectedRecord, dget_dset_self]

/-- C7: get_similar coincides with its specification (fetch k+1 when
excluding, drop the first result iff its distance is below 0.05, truncate to
k, keep pairs having both fields), and on a database built from items whose
j-th question is the query itself — every other item embedding at positive
squared distance from the query — no returned pair carries the query as its
question: the query's own record sorts strictly first, is dropped by the
near-exact threshold, and every surviving record holds a different question. -/
theorem c7_near_exact_exclusion (embed : String → Vec)
    (items : List (String × PyDict)) (query : String) (j k : Nat)
    (hj : j < items.length)
    (hquery : (items.getD j ("", [])).1 = query)
    (hpos : ∀ i, i < items.length → i ≠ j →
      0 < sqDist (embed query) (embed (items.getD i ("", [])).1)) :
    (∀ (e : String → Except PyErr Vec) (d : VDB) (qq : String) (kk : Nat) (ex : Bool),
      get_similar_questions e d qq kk ex = getSimilarSpec e d qq kk ex) ∧
    (∀ qv av, (qv, av) ∈ get_similar_questions (fun t => Except.ok (embed t))
        (buildDB embed items) query k true → qv ≠ PyVal.str query) := by
  constructor
  · intro e d qq kk ex
    cases ex with
    | false =>
      cases hs : search e d qq kk with
      | nil => simp [get_similar_questions, getSimilarSpec, hs]
      | cons r0 rest => simp [get_similar_questions, getSimilarSpec, hs]
    | true =>
      cases hs : search e d qq (kk + 1) with
      | nil => simp [get_similar_questions, getSimilarSpec, hs]
      | cons r0 rest =>
        by_cases hd : distOf r0 < (1 / 20 : ℚ)
        · simp [get_similar_questions, getSimilarSpec, hs, hd]
        · simp [get_similar_questions, getSimilarSpec, hs, hd]
  · intro qv av hmem
    set db := buildDB embed items with hdb
    set qvec := embed query with hqvec
    have hnlen : db.metadata.length = items.length := buildDB_metadata_length embed items
    have hilen : db.index.length = items.length := buildDB_index_length embed items
    set pairs := distPairsFrom qvec 0 db.index with hpairs
    set m : ℚ × Nat := (sqDist qvec (db.index.getD j []), j) with hm
    have hm2e : m.2 = j := rfl
    have hm1 : m.1 = 0 := by
      show sqDist qvec (db.index.getD j []) = 0
      rw [buildDB_index_getD embed items j hj, hquery, hqvec, sqDist_self]
    have hmmem : m ∈ pairs := by
      rw [hpairs]
      exact (mem_distPairsFrom qvec db.index m 0).mpr ⟨j, by omega, by rw [hm]; simp⟩
    have hshape : ∀ p ∈ pairs, ∃ i, i < items.length ∧
        p = (sqDist qvec (db.index.getD i []), i) := by
      intro p hp
      obtain ⟨i, hi, hpi⟩ := (mem_distPairsFrom qvec db.index p 0).mp hp
      exact ⟨i, by omega, by rw [hpi]; simp⟩
    have hsortmem : m ∈ sortByDist pairs := (mem_sortByDist m pairs).mpr hmmem
    have hmin : ∀ x ∈ sortByDist pairs, x ≠ m → m.1 < x.1 := by
      intro x hx hne
      obtain ⟨i, hi, hxi⟩ := hshape x ((mem_sortByDist x pairs).mp hx)
      by_cases hij : i = j
      · exfalso
        apply hne
        rw [hxi, hij, hm]
      · rw [hm1, hxi]
        show 0 < sqDist qvec (db.index.getD i [])
        rw [buildDB_index_getD embed items i hi, hqvec]
        exact hpos i hi hij
    obtain ⟨t, ht⟩ := head_of_sorted_unique_min (sortByDist pairs) m
      (sorted_sortByDist pairs) hsortmem hmin
    have hmnotint : m ∉ t := by
      have hnodup : (sortByDist pairs).Nodup :=
        ((perm_sortByDist pairs).nodup_iff).mpr (nodup_distPairsFrom qvec db.index 0)
      rw [ht] at hnodup
      exact (List.nodup_cons.mp hnodup).1
    -- unfold the search inside get_similar_questions
    have hk1 : min (k + 1) db.metadata.length = min (k + 1) items.length := by
      rw [hnlen]
    have hkpos : 0 < min (k + 1) items.length := by
      omega
    obtain ⟨k2, hk2⟩ : ∃ k2, min (k + 1) db.metadata.length = k2 + 1 := by
      rw [hk1]
      exact ⟨min (k + 1) items.length - 1, by omega⟩
    have hfaiss : faissSearch db.index qvec (min (k + 1) db.metadata.length) =
        m :: t.take k2 := by
      rw [faissSearch, ← hpairs, ht, hk2, List.take_succ_cons]
    have hm2lt : m.2 < db.metadata.length := by omega
    have hsearch : search (fun t => Except.ok (embed t)) db query (k + 1) =
        dset (db.metadata.getD m.2 []) "distance" (PyVal.num m.1) ::
          (t.take k2).filterMap (fun p =>
            if p.2 < db.metadata.length then
              some (dset (db.metadata.getD p.2 []) "distance" (PyVal.num p.1))
            else Option.none) := by
      rw [search, search_impl]
      simp only [← hqvec]
      rw [if_neg (by omega), hfaiss, List.filterMap_cons]
      simp only [hm2lt, if_true]
    have hdist0 : distOf (dset (db.metadata.getD m.2 []) "distance" (PyVal.num m.1)) =
        0 := by
      rw [distOf, dget_dset_self, hm1]
    simp only [get_similar_questions, hsearch, if_true] at hmem
    rw [if_pos (by rw [hdist0]; norm_num)] at hmem
    obtain ⟨r, hrtake, hrmatch⟩ := List.mem_filterMap.mp hmem
    have hrrest : r ∈ (t.take k2).filterMap (fun p =>
        if p.2 < db.metadata.length then
          some (dset (db.metadata.getD p.2 []) "distance" (PyVal.num p.1))
        else Option.none) := List.mem_of_mem_take hrtake
    obtain ⟨p, hpt, hpr⟩ := List.mem_filterMap.mp hrrest
    have hpint : p ∈ t := List.mem_of_mem_take hpt
    have hpsorted : p ∈ sortByDist pairs := by rw [ht]; exact List.mem_cons_of_mem m hpint
    obtain ⟨i, hi, hpi⟩ := hshape p ((mem_sortByDist p pairs).mp hpsorted)
    have hinej : i ≠ j := by
      intro hij
      apply hmnotint
      have hpm : p = m := by rw [hpi, hij, hm]
      exact hpm ▸ hpint
    have hp2 : p.2 = i := by rw [hpi]
    rw [hp2, if_pos (by omega)] at hpr
    injection hpr with hpr2
    have hq : dget r "question" = some (PyVal.str (items.getD i ("", [])).1) := by
      rw [← hpr2, dget_dset_ne _ _ _ _ (by decide),
        buildDB_metadata_getD embed items i hi, dget_injectedRecord_question]
    cases hqv : dget r "question" with
    | none => rw [hqv] at hrmatch; cases hrmatch
    | some q' =>
      cases hav : dget r "answer" with
      | none => rw [hqv, hav] at hrmatch; cases hrmatch
      | some a' =>
        rw [hqv, hav] at hrmatch
        injection hrmatch with hpair
        have hq'v : q' = qv := congrArg Prod.fst hpair
        rw [hqv] at hq
        injection hq with hq2
        rw [← hq'v, hq2]
        intro hcontra
        injection hcontra with hstr
        have hlt := hpos i hi hinej
        rw [hstr, sqDist_self] at hlt
        exact lt_irrefl 0 hlt

theorem c7_witness :
    (0 < c6_items.length) ∧ ((c6_items.getD 0 ("", [])).1 = "a") ∧
    (∀ i, i < c6_items.length → i ≠ 0 →
      0 < sqDist (c6_embed "a") (c6_embed (c6_items.getD i ("", [])).1)) ∧
    ((∀ (e : String → Except PyErr Vec) (d : VDB) (qq : String) (kk : Nat) (ex : Bool),
        get_similar_questions e d qq kk ex = getSimilarSpec e d qq kk ex) ∧
      (∀ qv av, (qv, av) ∈ get_similar_questions (fun t => Except.ok (c6_embed t))
          (buildDB c6_embed c6_items) "a" 1 true → qv ≠ PyVal.str "a")) := by
  have hlen : c6_items.length = 2 := rfl
  have hb : "bb".length = 2 := by decide
  have ha : "a".length = 1 := by decide
  have e2 : c6_embed "bb" = [(2 : ℚ)] := by simp [c6_embed, hb]
  have e1 : c6_embed "a" = [(1 : ℚ)] := by simp [c6_embed, ha]
  have hpos : ∀ i, i < c6_items.length → i ≠ 0 →
      0 < sqDist (c6_embed "a") (c6_embed (c6_items.getD i ("", [])).1) := by
    intro i hi hne
    rw [hlen] at hi
    interval_cases i
    · exact absurd rfl hne
    · show (0 : ℚ) < sqDist (c6_embed "a") (c6_embed "bb")
      rw [e1, e2]
      norm_num [sqDist]
  exact ⟨by decide, rfl, hpos,
    c7_near_exact_exclusion c6_embed c6_items "a" 0 1 (by decide) rfl hpos⟩

theorem heap_read_write_ne (h : Heap) (a b : Nat) (d : PyDict) (hne : b ≠ a) :
    (h.write a d).read b = h.read b := by
  rw [Heap.write, Heap.read, Heap.read]
  show (h.dicts.set a d).getD b [] = h.dicts.getD b []
  rw [List.getD_eq_getElem?_getD, List.getD_eq_getElem?_getD,
    List.getElem?_set_ne (fun he => hne he.symm)]

theorem heap_read_write_self (h : Heap) (a : Nat) (d : PyDict)
    (ha : a < h.dicts.length) :
    (h.write a d).read a = d := by
  rw [Heap.write, Heap.read]
  show (h.dicts.set a d).getD a [] = d
  rw [List.getD_eq_getElem?_getD, List.getElem?_set_self ha]
  rfl

theorem heap_read_alloc_lt (h : Heap) (d : PyDict) (a : Nat)
    (ha : a < h.dicts.length) :
    (h.alloc d).1.read a = h.read a := by
  rw [Heap.alloc, Heap.read, Heap.read]
  show (h.dicts ++ [d]).getD a [] = h.dicts.getD a []
  rw [List.getD_eq_getElem?_getD, List.getD_eq_getElem?_getD,
    List.getElem?_append_left ha]

theorem heap_read_alloc_self (h : Heap) (d : PyDict) :
    (h.alloc d).1.read (h.alloc d).2 = d := by
  rw [Heap.alloc, Heap.read]
  show (h.dicts ++ [d]).getD h.dicts.length [] = d
  rw [List.getD_eq_getElem?_getD, List.getElem?_append_right (le_refl _)]
  simp

theorem searchRefLoop_spec (db : VDBRef) (hits : List (ℚ × Nat)) :
    ∀ h : Heap, (∀ a ∈ db.metadataAddrs, a < h.dicts.length) →
      (∀ a, a < h.dicts.length → (searchRefLoop db h hits).1.read a = h.read a) ∧
      h.dicts.length ≤ (searchRefLoop db h hits).1.dicts.length ∧
      (∀ addr ∈ (searchRefLoop db h hits).2,
        h.dicts.length ≤ addr ∧ addr < (searchRefLoop db h hits).1.dicts.length) ∧
      (searchRefLoop db h hits).2.map (searchRefLoop db h hits).1.read =
        hits.filterMap (fun p =>
          if p.2 < db.metadataAddrs.length then
            some (dset (h.read (db.metadataAddrs.getD p.2 0)) "distance"
              (PyVal.num p.1))
          else Option.none) := by
  induction hits with
  | nil =>
    intro h _
    refine ⟨fun a _ => rfl, le_refl _, ?_, by simp [searchRefLoop]⟩
    intro addr haddr
    simp [searchRefLoop] at haddr
  | cons hit rest ih =>
    intro h hvalid
    obtain ⟨d, idx⟩ := hit
    by_cases hidx : idx < db.metadataAddrs.length
    · have hdef : searchRefLoop db h ((d, idx) :: rest) =
          (let alloc := h.alloc (h.read (db.metadataAddrs.getD idx 0))
           let h2 := alloc.1.write alloc.2
             (dset (alloc.1.read alloc.2) "distance" (PyVal.num d))
           let next := searchRefLoop db h2 rest
           (next.1, alloc.2 :: next.2)) := by
        rw [searchRefLoop, if_pos hidx]
      set md := h.read (db.metadataAddrs.getD idx 0) with hmd
      set h1 := h.alloc md with hh1
      set addr := h.dicts.length with haddrdef
      have halloc2 : (h.alloc md).2 = addr := rfl
      have hlen1 : h1.1.dicts.length = h.dicts.length + 1 := by
        rw [hh1, Heap.alloc]
        simp
      set h2 := h1.1.write addr (dset (h1.1.read addr) "distance" (PyVal.num d))
        with hh2
      have hlen2 : h2.dicts.length = h.dicts.length + 1 := by
        rw [hh2, Heap.write]
        simp [hlen1]
      have hvalid2 : ∀ a ∈ db.metadataAddrs, a < h2.dicts.length := by
        intro a ha
        have := hvalid a ha
        omega
      have hread2old : ∀ a, a < h.dicts.length → h2.read a = h.read a := by
        intro a ha
        rw [hh2, heap_read_write_ne _ _ _ _ (by omega), hh1,
          heap_read_alloc_lt _ _ _ ha]
      have hread2addr : h2.read addr = dset md "distance" (PyVal.num d) := by
        rw [hh2, heap_read_write_self _ _ _ (by omega)]
        exact congrArg (fun x => dset x "distance" (PyVal.num d))
          (heap_read_alloc_self h md)
      obtain ⟨ih1, ih2, ih3, ih4⟩ := ih h2 hvalid2
      have hres1 : (searchRefLoop db h ((d, idx) :: rest)).1 =
          (searchRefLoop db h2 rest).1 := by
        rw [hdef]; exact rfl
      have hres2 : (searchRefLoop db h ((d, idx) :: rest)).2 =
          addr :: (searchRefLoop db h2 rest).2 := by
        rw [hdef]; exact rfl
      refine ⟨?_, ?_, ?_, ?_⟩
      · intro a ha
        rw [hres1, ih1 a (by omega), hread2old a ha]
      · rw [hres1]
        omega
      · intro a ha
        rw [hres2] at ha
        rw [hres1]
        rcases List.mem_cons.mp ha with ha | ha
        · subst ha
          exact ⟨by omega, by omega⟩
        · have := ih3 a ha
          exact ⟨by omega, by omega⟩
      · rw [hres1, hres2, List.map_cons, ih1 addr (by omega), hread2addr,
          List.filterMap_cons]
        simp only [if_pos hidx]
        rw [ih4]
        congr 1
        apply List.filterMap_congr
        intro p _
        by_cases hp : p.2 < db.metadataAddrs.length
        · have hmem2 : db.metadataAddrs.getD p.2 0 ∈ db.metadataAddrs := by
            rw [List.getD_eq_getElem _ _ hp]
            exact List.getElem_mem _
          rw [if_pos hp, if_pos hp, hread2old _ (hvalid _ hmem2)]
        · rw [if_neg hp, if_neg hp]
    · have hdef : searchRefLoop db h ((d, idx) :: rest) = searchRefLoop db h rest := by
        rw [searchRefLoop, if_neg hidx]
      rw [hdef]
      obtain ⟨ih1, ih2, ih3, ih4⟩ := ih h hvalid
      refine ⟨ih1, ih2, ih3, ?_⟩
      rw [ih4, List.filterMap_cons, if_neg hidx]


theorem readback_metadata_length (db : VDBRef) (h : Heap) :
    (db.readback h).metadata.length = db.metadataAddrs.length := by
  simp [VDBRef.readback]

theorem readback_metadata_getD (db : VDBRef) (h : Heap) (i : Nat)
    (hi : i < db.metadataAddrs.length) :
    (db.readback h).metadata.getD i [] = h.read (db.metadataAddrs.getD i 0) := by
  show (db.metadataAddrs.map h.read).getD i [] = h.read (db.metadataAddrs.getD i 0)
  rw [List.getD_eq_getElem _ _ (by simpa using hi), List.getElem_map,
    List.getD_eq_getElem _ _ hi]

/-- C10: VectorDatabase.search never mutates stored state (vector_db.py
lines 132-143): run on the heap model where metadata records are objects
held by reference, a search (i) leaves the database structure — index rows
and metadata addresses — unchanged, (ii) leaves the contents of every
pre-existing heap object, in particular every stored metadata record,
unchanged, (iii) returns only freshly allocated addresses, none of which is
a stored record's address, (iv) returns copies whose contents are exactly
the pure-value search results on the current stored records, each a stored
record with only the distance field added to the copy, and (v) overwriting
any returned copy with any dict leaves the readback of the stored database
— and hence the outcome of every subsequent search — unchanged. -/
theorem c10_search_no_mutation (embed : String → Except PyErr Vec)
    (db : VDBRef) (h : Heap) (query : String) (k : Nat)
    (hvalid : ∀ a ∈ db.metadataAddrs, a < h.dicts.length) :
    (search_ref embed db h query k).2.1 = db ∧
    (∀ a, a < h.dicts.length →
      (search_ref embed db h query k).1.read a = h.read a) ∧
    (∀ a ∈ (search_ref embed db h query k).2.2, h.dicts.length ≤ a) ∧
    (search_ref embed db h query k).2.2.map
        (search_ref embed db h query k).1.read =
      search embed (db.readback h) query k ∧
    (∀ a ∈ (search_ref embed db h query k).2.2, ∀ dnew : PyDict,
      VDBRef.readback db ((search_ref embed db h query k).1.write a dnew) =
        db.readback h) := by
  cases hq : embed query with
  | error e =>
    have hres : search_ref embed db h query k = (h, db, []) := by
      rw [search_ref, hq]
    rw [hres]
    refine ⟨rfl, fun a _ => rfl,
      fun a ha => absurd ha (List.not_mem_nil a), ?_,
      fun a ha => absurd ha (List.not_mem_nil a)⟩
    simp [search, search_impl, hq]
  | ok qv =>
    by_cases hk : min k db.metadataAddrs.length = 0
    · have hres : search_ref embed db h query k = (h, db, []) := by
        simp only [search_ref, hq]
        rw [if_pos hk]
      rw [hres]
      refine ⟨rfl, fun a _ => rfl,
        fun a ha => absurd ha (List.not_mem_nil a), ?_,
        fun a ha => absurd ha (List.not_mem_nil a)⟩
      simp [search, search_impl, hq, readback_metadata_length, hk]
    · obtain ⟨s1, s2, s3, s4⟩ :=
        searchRefLoop_spec db
          (faissSearch db.index qv (min k db.metadataAddrs.length)) h hvalid
      have hres : search_ref embed db h query k =
          ((searchRefLoop db h
              (faissSearch db.index qv (min k db.metadataAddrs.length))).1, db,
            (searchRefLoop db h
              (faissSearch db.index qv (min k db.metadataAddrs.length))).2) := by
        rw [search_ref, hq]
        simp only [if_neg hk]
      rw [hres]
      refine ⟨rfl, s1, fun a ha => (s3 a ha).1, ?_, ?_⟩
      · rw [s4, search, search_impl, hq]
        simp only [readback_metadata_length, if_neg hk]
        show _ = List.filterMap _ (faissSearch (db.readback h).index qv _)
        have hidx : (db.readback h).index = db.index := rfl
        rw [hidx]
        apply List.filterMap_congr
        intro p _
        by_cases hp : p.2 < db.metadataAddrs.length
        · rw [if_pos hp, if_pos hp, readback_metadata_getD db h p.2 hp]
        · rw [if_neg hp, if_neg hp]
      · intro a ha dnew
        show VDB.mk db.index _ = VDB.mk db.index _
        refine congrArg (VDB.mk db.index) (List.map_congr_left ?_)
        intro m hm
        have hmlt : m < h.dicts.length := hvalid m hm
        have hma : m ≠ a := by
          have := (s3 a ha).1
          omega
        rw [heap_read_write_ne _ _ _ _ hma, s1 m hmlt]

/-- Witness for C10: the frame property instantiated on a one-record
database with a stored metadata dict, k = 1. -/
theorem c10_witness :
    (∀ a ∈ c10_db.metadataAddrs, a < c10_heap.dicts.length) ∧
    ((search_ref c10_embed c10_db c10_heap "x" 1).2.1 = c10_db ∧
    (∀ a, a < c10_heap.dicts.length →
      (search_ref c10_embed c10_db c10_heap "x" 1).1.read a = c10_heap.read a) ∧
    (∀ a ∈ (search_ref c10_embed c10_db c10_heap "x" 1).2.2,
      c10_heap.dicts.length ≤ a) ∧
    (search_ref c10_embed c10_db c10_heap "x" 1).2.2.map
        (search_ref c10_embed c10_db c10_heap "x" 1).1.read =
      search c10_embed (c10_db.readback c10_heap) "x" 1 ∧
    (∀ a ∈ (search_ref c10_embed c10_db c10_heap "x" 1).2.2, ∀ dnew : PyDict,
      VDBRef.readback c10_db
          ((search_ref c10_embed c10_db c10_heap "x" 1).1.write a dnew) =
        c10_db.readback c10_heap)) :=
  ⟨by decide,
   c10_search_no_mutation c10_embed c10_db c10_heap "x" 1 (by decide)⟩

theorem any_of_dget (d : PyDict) (s : String) (v : PyVal)
    (h : dget d s = some v) : d.any (fun p => decide (p.1 = s)) = true := by
  rw [dget] at h
  cases hf : List.find? (fun p => decide (p.1 = s)) d with
  | none => rw [hf] at h; exact absurd h (by simp)
  | some p =>
    have hp := List.mem_of_find?_eq_some hf
    have hps := List.find?_some hf
    exact List.any_eq_true.mpr ⟨p, hp, hps⟩

theorem dget_mem (d : PyDict) (s : String) (v : PyVal) (h : dget d s = some v) :
    (s, v) ∈ d := by
  rw [dget] at h
  cases hf : List.find? (fun p => decide (p.1 = s)) d with
  | none => rw [hf] at h; exact absurd h (by simp)
  | some p =>
    rw [hf] at h
    have hp := List.mem_of_find?_eq_some hf
    have hps : p.1 = s := by simpa using List.find?_some hf
    have hv : p.2 = v := by simpa using h
    have hpe : p = (s, v) := Prod.ext hps hv
    rwa [hpe] at hp

theorem not_mem_keys_of_dget_none (d : PyDict) (s : String)
    (h : dget d s = Option.none) : s ∉ d.map Prod.fst := by
  rw [dget] at h
  cases hf : List.find? (fun p => decide (p.1 = s)) d with
  | some p => rw [hf] at h; exact absurd h (by simp)
  | none =>
    intro hmem
    obtain ⟨p, hp, hfst⟩ := List.mem_map.mp hmem
    have hne := List.find?_eq_none.mp hf p hp
    simp only [decide_eq_true_eq] at hne
    exact hne hfst

theorem countRecords_cons (p : String × PyVal) (st : EvalResults) :
    countRecords (p :: st) =
      (match p.2 with | PyVal.list l => l.length | _ => 0) + countRecords st := by
  simp [countRecords]

theorem countRecords_append (a b : EvalResults) :
    countRecords (a ++ b) = countRecords a + countRecords b := by
  simp [countRecords]

theorem countRecords_dset_grow (st : EvalResults) (s : String) (xs : List PyVal)
    (v : PyVal) (hnd : (st.map Prod.fst).Nodup)
    (hget : dget st s = some (PyVal.list xs)) :
    countRecords (dset st s (PyVal.list (xs ++ [v]))) = countRecords st + 1 := by
  induction st with
  | nil => simp [dget] at hget
  | cons a rest ih =>
    rw [List.map_cons, List.nodup_cons] at hnd
    by_cases hk : a.1 = s
    · have hv : a.2 = PyVal.list xs := by
        rw [dget, List.find?_cons, decide_eq_true hk] at hget
        simpa using hget
      have hany : (a :: rest).any (fun p => decide (p.1 = s)) = true := by
        simp [hk]
      rw [dset, if_pos hany, List.map_cons, if_pos hk]
      have hne : ∀ p ∈ rest, ¬(p.1 = s) := by
        intro p hp hps
        exact hnd.1 (hk ▸ hps ▸ List.mem_map.mpr ⟨p, hp, rfl⟩)
      have hrest : rest.map
          (fun p => if p.1 = s then (s, PyVal.list (xs ++ [v])) else p) = rest := by
        rw [List.map_congr_left (fun p hp => if_neg (hne p hp))]
        exact List.map_id rest
      rw [hrest, countRecords_cons, countRecords_cons, hv]
      show (xs ++ [v]).length + countRecords rest =
        xs.length + countRecords rest + 1
      simp only [List.length_append, List.length_cons, List.length_nil]
      omega
    · have hget' : dget rest s = some (PyVal.list xs) := by
        rw [dget, List.find?_cons, decide_eq_false hk] at hget
        exact hget
      have hanyr : rest.any (fun p => decide (p.1 = s)) = true :=
        any_of_dget rest s _ hget'
      have hany : (a :: rest).any (fun p => decide (p.1 = s)) = true := by
        simp [hanyr]
      rw [dset, if_pos hany, List.map_cons, if_neg hk]
      have hds : dset rest s (PyVal.list (xs ++ [v])) = rest.map
          (fun p => if p.1 = s then (s, PyVal.list (xs ++ [v])) else p) := by
        rw [dset, if_pos hanyr]
      have hrec := ih hnd.2 hget'
      rw [hds] at hrec
      rw [countRecords_cons, countRecords_cons, hrec]
      omega

theorem goodState_dset_list (st : EvalResults) (s : String) (l : List PyVal)
    (hgs : GoodState st) : GoodState (dset st s (PyVal.list l)) := by
  obtain ⟨hvals, hnd⟩ := hgs
  rw [dset]
  by_cases hany : st.any (fun p => decide (p.1 = s)) = true
  · rw [if_pos hany]
    constructor
    · intro p hp
      obtain ⟨q, hq, hqe⟩ := List.mem_map.mp hp
      by_cases hk : q.1 = s
      · rw [if_pos hk] at hqe
        exact ⟨l, by rw [← hqe]⟩
      · rw [if_neg hk] at hqe
        exact hvals p (hqe ▸ hq)
    · have hkeys : (st.map (fun p => if p.1 = s then (s, PyVal.list l) else p)).map
          Prod.fst = st.map Prod.fst := by
        rw [List.map_map]
        apply List.map_congr_left
        intro p _
        by_cases hk : p.1 = s
        · simp [hk]
        · simp [hk]
      rw [hkeys]
      exact hnd
  · rw [if_neg hany]
    constructor
    · intro p hp
      rcases List.mem_append.mp hp with h | h
      · exact hvals p h
      · have hpe : p = (s, PyVal.list l) := by simpa using h
        exact ⟨l, by rw [hpe]⟩
    · rw [List.map_append]
      refine List.Nodup.append hnd (by simp) ?_
      intro x hx hy
      simp at hy
      subst hy
      obtain ⟨p, hp, hps⟩ := List.mem_map.mp hx
      exact hany (List.any_eq_true.mpr ⟨p, hp, by simp [hps]⟩)

theorem goodState_append_new (st : EvalResults) (s : String) (l : List PyVal)
    (hgs : GoodState st) (hget : dget st s = Option.none) :
    GoodState (st ++ [(s, PyVal.list l)]) := by
  obtain ⟨hvals, hnd⟩ := hgs
  constructor
  · intro p hp
    rcases List.mem_append.mp hp with h | h
    · exact hvals p h
    · have hpe : p = (s, PyVal.list l) := by simpa using h
      exact ⟨l, by rw [hpe]⟩
  · rw [List.map_append]
    refine List.Nodup.append hnd (by simp) ?_
    intro x hx hy
    simp at hy
    exact (not_mem_keys_of_dget_none st s hget) (hy ▸ hx)

theorem appendResult_ok (st : EvalResults) (s : String) (ev : PyDict)
    (hgs : GoodState st) :
    ∃ st', appendResult st s ev = Except.ok st' ∧
      countRecords st' = countRecords st + 1 ∧ GoodState st' := by
  cases hget : dget st s with
  | none =>
    refine ⟨st ++ [(s, PyVal.list [PyVal.dict ev])], ?_, ?_, ?_⟩
    · rw [appendResult, hget]
    · rw [countRecords_append]
      simp [countRecords]
    · exact goodState_append_new st s _ hgs hget
  | some v =>
    obtain ⟨xs, hxs⟩ := hgs.1 (s, v) (dget_mem st s v hget)
    have hv : v = PyVal.list xs := hxs
    refine ⟨dset st s (PyVal.list (xs ++ [PyVal.dict ev])), ?_, ?_, ?_⟩
    · rw [appendResult, hget, hv]
    · exact countRecords_dset_grow st s xs _ hgs.2 (hv ▸ hget)
    · exact goodState_dset_list st s _ hgs

theorem evalAccuracyStep_ok (jA : PyVal) (cfg : List String) (ev : PyDict)
    (hacc : "accuracy" ∈ cfg) (hJ : JudgeOk jA) :
    evalAccuracyStep jA cfg ev = Except.ok (setMetric ev "accuracy" jA) := by
  obtain ⟨⟨x, hx⟩, ⟨y, hy⟩⟩ := hJ
  simp only [evalAccuracyStep, if_pos hacc, hx, hy]

theorem evalReasoningStep_ok (jR : PyVal) (cfg : List String) (pd ev : PyDict)
    (hRS : ReasoningSafe pd) (hJ : JudgeOk jR) :
    evalReasoningStep jR cfg pd ev = Except.ok ev ∨
    evalReasoningStep jR cfg pd ev =
      Except.ok (setMetric ev "reasoning_quality" jR) := by
  obtain ⟨⟨x, hx⟩, ⟨y, hy⟩⟩ := hJ
  simp only [evalReasoningStep]
  by_cases h1 : "reasoning_quality" ∈ cfg ∧
      pyTruthy (dgetD pd "has_reasoning" (PyVal.bool false)) = true
  · rw [if_pos h1]
    by_cases h2 : pyTruthy (dgetD pd "reasoning" PyVal.none) = true
    · have hsl : sliceable (dgetD pd "reasoning" PyVal.none) = true := hRS h1.2 h2
      rw [if_pos h2, if_pos hsl, hx, hy]
      exact Or.inr rfl
    · rw [if_neg h2]
      exact Or.inl rfl
  · rw [if_neg h1]
    exact Or.inl rfl

theorem dget_metrics_setMetric (ev : PyDict) (m0 : PyDict) (name : String)
    (v : PyVal) (h : dget ev "metrics" = some (PyVal.dict m0)) :
    dget (setMetric ev name v) "metrics" =
      some (PyVal.dict (dset m0 name v)) := by
  rw [setMetric]
  have hd : dgetD ev "metrics" (PyVal.dict []) = PyVal.dict m0 := by
    rw [dgetD, h]
    rfl
  rw [hd]
  exact dget_dset_self ev "metrics" _

theorem accScore_of_metrics (ev : PyDict) (m : PyDict) (jA : PyVal) (x : PyVal)
    (hm : dget ev "metrics" = some (PyVal.dict m))
    (ha : dget m "accuracy" = some jA)
    (hx : pySubscript jA "score" = Except.ok x) :
    accuracyScoreOf ev = Except.ok x := by
  have h1 : pySubscript (PyVal.dict ev) "metrics" = Except.ok (PyVal.dict m) := by
    rw [pySubscript, hm]
  have h2 : pySubscript (PyVal.dict m) "accuracy" = Except.ok jA := by
    rw [pySubscript, ha]
  simp only [accuracyScoreOf, h1, h2, hx, Bind.bind, Except.bind]

theorem evalChain_ok (jA jR : PyVal) (cfg : List String) (pd ev0 m0 : PyDict)
    (hm0 : dget ev0 "metrics" = some (PyVal.dict m0))
    (hA : JudgeOk jA) (hR : JudgeOk jR) (hRS : ReasoningSafe pd)
    (hacc : "accuracy" ∈ cfg) :
    ∃ ev2 m2,
      evalAccuracyStep jA cfg ev0 = Except.ok (setMetric ev0 "accuracy" jA) ∧
      evalReasoningStep jR cfg pd (setMetric ev0 "accuracy" jA) =
        Except.ok ev2 ∧
      dget ev2 "metrics" = some (PyVal.dict m2) ∧
      dget m2 "accuracy" = some jA := by
  have h1 := evalAccuracyStep_ok jA cfg ev0 hacc hA
  have hm1 : dget (setMetric ev0 "accuracy" jA) "metrics" =
      some (PyVal.dict (dset m0 "accuracy" jA)) :=
    dget_metrics_setMetric ev0 m0 "accuracy" jA hm0
  have hacc1 : dget (dset m0 "accuracy" jA) "accuracy" = some jA :=
    dget_dset_self m0 "accuracy" jA
  rcases evalReasoningStep_ok jR cfg pd (setMetric ev0 "accuracy" jA) hRS hR
    with h2 | h2
  · exact ⟨_, _, h1, h2, hm1, hacc1⟩
  · refine ⟨_, _, h1, h2,
      dget_metrics_setMetric _ _ "reasoning_quality" jR hm1, ?_⟩
    rw [dget_dset_ne _ _ _ _ (by decide)]
    exact hacc1

theorem evaluate_answer_full (jA jR : PyVal) (cfg : List String) (now : ℚ)
    (st : EvalResults) (q ra : PyVal) (pd : PyDict) (s : String)
    (qid cat diff : PyVal)
    (hA : JudgeOk jA) (hR : JudgeOk jR) (hRS : ReasoningSafe pd)
    (hacc : "accuracy" ∈ cfg) (hgs : GoodState st) :
    ∃ st' ev,
      evaluate_answer jA jR cfg now st q ra pd s qid cat diff =
        (st', Except.ok ev) ∧
      countRecords st' = countRecords st + 1 ∧ GoodState st' ∧
      ∃ x, accuracyScoreOf ev = Except.ok x := by
  obtain ⟨ev2, m2, h1, h2, hm2, hacc2⟩ := evalChain_ok jA jR cfg pd
    ([("question_id", qid), ("question", q), ("reference_answer", ra),
      ("model_answer", dgetD pd "answer" (PyVal.str "")),
      ("full_response", dgetD pd "full_response" (PyVal.str "")),
      ("has_reasoning", dgetD pd "has_reasoning" (PyVal.bool false)),
      ("reasoning", dgetD pd "reasoning" PyVal.none),
      ("strategy", PyVal.str s), ("category", cat), ("difficulty", diff),
      ("metrics", PyVal.dict []), ("timestamp", PyVal.num now)])
    [] rfl hA hR hRS hacc
  obtain ⟨st', hap, hcount, hgs'⟩ := appendResult_ok st s ev2 hgs
  refine ⟨st', ev2, ?_, hcount, hgs', ?_⟩
  · simp only [evaluate_answer, h1, h2, hap]
  · obtain ⟨⟨x, hx⟩, _⟩ := hA
    exact ⟨x, accScore_of_metrics ev2 m2 jA x hm2 hacc2 hx⟩

theorem processTask_success (o : TaskOracle) (cfg : List String) (now : ℚ)
    (st : EvalResults) (q : PyDict) (s : String)
    (hW : WellQ q) (hO : FullOk o) (hgs : GoodState st)
    (hacc : "accuracy" ∈ cfg) :
    ∃ st' tr,
      process_question_strategy o cfg now st q s true true false =
        Except.ok (st', tr) ∧
      tr.success = true ∧
      countRecords st' = countRecords st + 1 ∧ GoodState st' := by
  obtain ⟨hid, hqt⟩ := hW
  obtain ⟨qid, hqid⟩ := Option.isSome_iff_exists.mp hid
  obtain ⟨qt, hqtv⟩ := Option.isSome_iff_exists.mp hqt
  obtain ⟨⟨p, hp⟩, ⟨r, hr, hrs⟩, hlog, hpost, hJA, hJR⟩ := hO
  obtain ⟨st', ev, heval, hcount, hgs', x, hx⟩ :=
    evaluate_answer_full o.judgeAcc o.judgeReas cfg now st qt
      (dgetD q "answer" (dgetD q "reference_answer" (PyVal.str "")))
      (processedOf o r) s qid (dgetD q "category" (PyVal.str ""))
      (dgetD q "difficulty" (PyVal.str "")) hJA hJR hrs hacc hgs
  refine ⟨st', ⟨qid, s, true, Option.none, some ev⟩, ?_, rfl, hcount, hgs'⟩
  simp only [process_question_strategy, hqid, hqtv, processTry, hp, hr, hlog,
    eq_self_iff_true, if_true]
  have hpd : (match o.processResponse with
      | Except.error _ => defaultProcessed r
      | Except.ok pr => coerceProcessed r pr) = processedOf o r := rfl
  rw [hpd]
  simp only [processEvalPhase, Bool.not_false, Bool.and_self, eq_self_iff_true,
    if_true, heval, hx, hpost]

theorem processTask_modelFail (o : TaskOracle) (cfg : List String) (now : ℚ)
    (st : EvalResults) (q : PyDict) (s : String) (hE hL lO : Bool)
    (hW : WellQ q) (hF : FailModel o) :
    ∃ tr, process_question_strategy o cfg now st q s hE hL lO =
        Except.ok (st, tr) ∧ tr.success = false := by
  obtain ⟨hid, hqt⟩ := hW
  obtain ⟨qid, hqid⟩ := Option.isSome_iff_exists.mp hid
  obtain ⟨qt, hqtv⟩ := Option.isSome_iff_exists.mp hqt
  obtain ⟨⟨p, hp⟩, ⟨e, he⟩⟩ := hF
  refine ⟨⟨qid, s, false, some e, Option.none⟩, ?_, rfl⟩
  simp only [process_question_strategy, hqid, hqtv, processTry, hp, he]

theorem countFailures_append (a b : List RunReport) :
    countFailures (a ++ b) = countFailures a + countFailures b := by
  simp [countFailures, List.filter_append]

theorem countFailures_cons_ok (tr : TaskResult) (l : List RunReport)
    (h : tr.success = true) :
    countFailures (RunReport.completed tr :: l) = countFailures l := by
  simp [countFailures, h]

theorem countFailures_cons_failed (tr : TaskResult) (l : List RunReport)
    (h : tr.success = false) :
    countFailures (RunReport.completed tr :: l) = countFailures l + 1 := by
  simp [countFailures, h]

theorem runTasks_append (oracle : PyDict → String → TaskOracle)
    (cfg : List String) (now : ℚ) (hE hL lO : Bool) :
    ∀ (xs ys : List (PyDict × String)) (st : EvalResults),
      runTasks oracle cfg now hE hL lO st (xs ++ ys) =
        ((runTasks oracle cfg now hE hL lO
            (runTasks oracle cfg now hE hL lO st xs).1 ys).1,
          (runTasks oracle cfg now hE hL lO st xs).2 ++
            (runTasks oracle cfg now hE hL lO
              (runTasks oracle cfg now hE hL lO st xs).1 ys).2) := by
  intro xs
  induction xs with
  | nil =>
    intro ys st
    simp [runTasks]
  | cons a rest ih =>
    intro ys st
    obtain ⟨q, s⟩ := a
    rw [List.cons_append]
    cases hstep : process_question_strategy (oracle q s) cfg now st q s
        hE hL lO with
    | ok pr =>
      obtain ⟨st', tr⟩ := pr
      simp only [runTasks, hstep]
      rw [ih]
      simp
    | error e =>
      simp only [runTasks, hstep]
      rw [ih]
      simp

theorem runTasks_allOk (oracle : PyDict → String → TaskOracle)
    (cfg : List String) (now : ℚ) (hacc : "accuracy" ∈ cfg) :
    ∀ (tasks : List (PyDict × String)) (st : EvalResults), GoodState st →
      (∀ t ∈ tasks, WellQ t.1 ∧ FullOk (oracle t.1 t.2)) →
      GoodState (runTasks oracle cfg now true true false st tasks).1 ∧
      countRecords (runTasks oracle cfg now true true false st tasks).1 =
        countRecords st + tasks.length ∧
      countFailures (runTasks oracle cfg now true true false st tasks).2 = 0 := by
  intro tasks
  induction tasks with
  | nil =>
    intro st hgs _
    exact ⟨hgs, by simp [runTasks], by simp [runTasks, countFailures]⟩
  | cons a rest ih =>
    intro st hgs hall
    obtain ⟨q, s⟩ := a
    obtain ⟨hW, hO⟩ := hall (q, s) (List.mem_cons_self _ _)
    obtain ⟨st', tr, hstep, hsucc, hcount, hgs'⟩ :=
      processTask_success (oracle q s) cfg now st q s hW hO hgs hacc
    obtain ⟨ihg, ihc, ihf⟩ :=
      ih st' hgs' (fun t ht => hall t (List.mem_cons_of_mem _ ht))
    simp only [runTasks, hstep]
    refine ⟨ihg, ?_, ?_⟩
    · rw [ihc, hcount, List.length_cons]
      omega
    · rw [countFailures_cons_ok tr _ hsucc]
      exact ihf

/-- Counterexample to C5 as stated: two tasks, the collaborator failing only
in the post-scoring log-file lookup of the zero-shot task.  The run completes
without raising and reports exactly 1 task failure among N = 2, yet the
aggregator holds 2 records, not N - 1 = 1: the failed task's record was
appended by evaluate_answer before the failing step, so the failed task is
not absent from the results. -/
theorem c5_postscoring_failure_keeps_record :
    (run_evaluation c5_oracle EVALUATION_METRICS 0 [] [c5_question]
        ["baseline", "zero_shot"] Option.none Option.none Option.none
        false true true).map
      (fun p => (countRecords p.1, countFailures p.2)) = Except.ok (2, 1) := rfl

/-- C5 (amended): fail-open orchestration holds when the single failing task
fails before its record is appended — here, its model call raises.  For any
split of the task universe as l₁ ++ (qf, sf) :: l₂ where every task of l₁ and
l₂ succeeds end to end and the (qf, sf) task's model call raises, a full
single-threaded run returns normally (no exception), the aggregator gains
exactly l₁.length + l₂.length records — the failed task absent — and exactly
1 task failure is reported. -/
theorem c5_amended (oracle : PyDict → String → TaskOracle)
    (metricsCfg : List String) (now : ℚ) (st0 : EvalResults)
    (questions : List PyDict) (strategies : List String)
    (l₁ l₂ : List (PyDict × String)) (qf : PyDict) (sf : String)
    (hacc : "accuracy" ∈ metricsCfg) (hgs : GoodState st0)
    (hsplit : tasksOf questions strategies = l₁ ++ (qf, sf) :: l₂)
    (h1 : ∀ t ∈ l₁, WellQ t.1 ∧ FullOk (oracle t.1 t.2))
    (h2 : ∀ t ∈ l₂, WellQ t.1 ∧ FullOk (oracle t.1 t.2))
    (hfq : WellQ qf) (hfo : FailModel (oracle qf sf)) :
    ∃ final : EvalResults × List RunReport,
      run_evaluation oracle metricsCfg now st0 questions strategies
        Option.none Option.none Option.none false true true =
        Except.ok final ∧
      countRecords final.1 = countRecords st0 + l₁.length + l₂.length ∧
      countFailures final.2 = 1 := by
  have hrun : run_evaluation oracle metricsCfg now st0 questions strategies
      Option.none Option.none Option.none false true true =
      Except.ok (runTasks oracle metricsCfg now true true false st0
        (tasksOf questions strategies)) := rfl
  obtain ⟨hg1, hc1, hf1⟩ := runTasks_allOk oracle metricsCfg now hacc l₁ st0 hgs h1
  obtain ⟨tr, hstep, hsucc⟩ := processTask_modelFail (oracle qf sf) metricsCfg
    now (runTasks oracle metricsCfg now true true false st0 l₁).1 qf sf
    true true false hfq hfo
  obtain ⟨hg2, hc2, hf2⟩ := runTasks_allOk oracle metricsCfg now hacc l₂
    (runTasks oracle metricsCfg now true true false st0 l₁).1 hg1 h2
  have hmid : runTasks oracle metricsCfg now true true false
      (runTasks oracle metricsCfg now true true false st0 l₁).1
      ((qf, sf) :: l₂) =
      ((runTasks oracle metricsCfg now true true false
          (runTasks oracle metricsCfg now true true false st0 l₁).1 l₂).1,
        RunReport.completed tr ::
          (runTasks oracle metricsCfg now true true false
            (runTasks oracle metricsCfg now true true false st0 l₁).1 l₂).2) := by
    simp only [runTasks, hstep]
  refine ⟨((runTasks oracle metricsCfg now true true false
      (runTasks oracle metricsCfg now true true false st0 l₁).1 l₂).1,
      (runTasks oracle metricsCfg now true true false st0 l₁).2 ++
        (RunReport.completed tr ::
          (runTasks oracle metricsCfg now true true false
            (runTasks oracle metricsCfg now true true false st0 l₁).1 l₂).2)),
    ?_, ?_, ?_⟩
  · rw [hrun, hsplit,
      runTasks_append oracle metricsCfg now true true false l₁
        ((qf, sf) :: l₂) st0, hmid]
  · rw [hc2, hc1]
  · rw [countFailures_append, hf1, countFailures_cons_failed tr _ hsucc, hf2]

theorem c5_fullOk_side : FullOk (c5_witness_oracle c5_question "baseline") := by
  refine ⟨⟨"prompt", rfl⟩, ⟨"resp", rfl, ?_⟩, rfl, rfl,
    ⟨⟨PyVal.num 1, rfl⟩, ⟨PyVal.str "ok", rfl⟩⟩,
    ⟨⟨PyVal.num 1, rfl⟩, ⟨PyVal.str "ok", rfl⟩⟩⟩
  intro h _
  exact absurd h (by decide)

theorem c5_failModel_side : FailModel (c5_witness_oracle c5_question "zero_shot") :=
  ⟨⟨"prompt", rfl⟩, ⟨PyErr.runtimeError, rfl⟩⟩

/-- Witness for C5 (amended): the two-task run in which the zero-shot task's
model call raises yields exactly 1 record and 1 reported failure. -/
theorem c5_amended_witness :
    ∃ final : EvalResults × List RunReport,
      run_evaluation c5_witness_oracle EVALUATION_METRICS 0 [] [c5_question]
        ["baseline", "zero_shot"] Option.none Option.none Option.none
        false true true = Except.ok final ∧
      countRecords final.1 = countRecords [] +
        ([(c5_question, "baseline")] : List (PyDict × String)).length +
        ([] : List (PyDict × String)).length ∧
      countFailures final.2 = 1 :=
  c5_amended c5_witness_oracle EVALUATION_METRICS 0 [] [c5_question]
    ["baseline", "zero_shot"] [(c5_question, "baseline")] []
    c5_question "zero_shot" (by decide)
    ⟨fun p hp => absurd hp (List.not_mem_nil p), List.nodup_nil⟩ rfl
    (by
      intro t ht
      have hte : t = (c5_question, "baseline") := by simpa using ht
      rw [hte]
      exact ⟨⟨by decide, by decide⟩, c5_fullOk_side⟩)
    (fun t ht => absurd ht (List.not_mem_nil t))
    ⟨by decide, by decide⟩ c5_failModel_side

end CotEval
